import Mathlib

/-!
Verification of the xv expression-evaluator core (src/xv.c) against its
natural-language specification.

The development shallow-embeds the evaluator: `struct value` becomes the
inductive `Value`, the coercion kernel (`to_f64`, `to_bool`, ...) and the
operator kernel (`vor`, `veq`, `vdiv`, ...) become Lean functions, and the
precedence-climbing evaluator (`eval_comma` ... `eval_atom`, `eval_auto`,
`eval_expr`, `eval_foreach`) becomes a mutual family of structurally
recursive functions.  A `fuel` parameter (absent from the C) makes the
recursion structural; all entry points supply far more fuel than any
reachable call chain can consume, so the fuel-exhausted branch is dead on
every input considered here.

Modelling choices, stated once:
* bytes are `Nat` (values < 256), byte ranges are `List Nat`;
* IEEE-754 doubles are modelled by `F64`: NaN, the two infinities, and
  finite values carried exactly as rationals.  The operations the claims
  depend on (comparisons, `isnan`, `floor`/`ceil`, integer casts, the
  division-by-zero and NaN special cases) are exact on this model; the
  rounding of finite arithmetic results and of int-to-double casts is not
  modelled (no claim depends on it);
* the external `ryu` double formatter and the external JSON walker
  (both outside src/) are modelled from the spec: JSON values are carried
  structurally by `Json`, and `write_double` renders finite values as
  exact decimals;
* the thread-local arena is not modelled; allocation never fails, so the
  `err_oom` branches of the C are dead in the model;
* host callbacks: the `ref` callback is a pure function
  `Value → List Nat → Value`; function-pointer payloads of `FUNC_KIND`
  values are modelled as indices into a host-supplied table `Env.funcs`.
-/

namespace XV

/-- Byte strings of the evaluator: each element is a byte value. -/
abbrev Bytes := List Nat

/-- Convenience: the bytes of an ASCII string literal. -/
def bytesR (s : String) : Bytes := s.data.map Char.toNat

/-! ## The double model -/

/-- Model of a C `double`: NaN, infinities, or an exact finite value. -/
inductive F64 where
  | nan
  | pinf
  | ninf
  | fin (q : ℚ)
deriving DecidableEq, Repr

namespace F64

/-- IEEE `<` on the model: false whenever an operand is NaN. -/
def lt : F64 → F64 → Bool
  | nan, _ => false
  | _, nan => false
  | ninf, ninf => false
  | ninf, _ => true
  | _, ninf => false
  | pinf, _ => false
  | fin _, pinf => true
  | fin a, fin b => decide (a < b)

/-- IEEE `==` on the model: false whenever an operand is NaN. -/
def feq : F64 → F64 → Bool
  | nan, _ => false
  | _, nan => false
  | pinf, pinf => true
  | ninf, ninf => true
  | fin a, fin b => decide (a = b)
  | _, _ => false

/-- Sign flag of a model double used for infinity arithmetic: true when
the value is negative (finite negative or negative infinity). -/
def isNeg : F64 → Bool
  | ninf => true
  | fin q => decide (q < 0)
  | _ => false

/-- Addition; finite values are added exactly (rounding not modelled). -/
def fadd : F64 → F64 → F64
  | nan, _ => nan
  | _, nan => nan
  | pinf, ninf => nan
  | ninf, pinf => nan
  | pinf, _ => pinf
  | _, pinf => pinf
  | ninf, _ => ninf
  | _, ninf => ninf
  | fin a, fin b => fin (a + b)

/-- Subtraction; finite values exact (rounding not modelled). -/
def fsub : F64 → F64 → F64
  | nan, _ => nan
  | _, nan => nan
  | pinf, pinf => nan
  | ninf, ninf => nan
  | pinf, _ => pinf
  | ninf, _ => ninf
  | fin _, pinf => ninf
  | fin _, ninf => pinf
  | fin a, fin b => fin (a - b)

/-- Multiplication; finite values exact (rounding not modelled). -/
def fmul : F64 → F64 → F64
  | nan, _ => nan
  | _, nan => nan
  | fin a, fin b => fin (a * b)
  | a, b =>
    -- at least one infinity; infinity times zero is NaN
    match a, b with
    | fin q, _ => if q = 0 then nan else if (isNeg a) = (isNeg b) then pinf else ninf
    | _, fin q => if q = 0 then nan else if (isNeg a) = (isNeg b) then pinf else ninf
    | _, _ => if (isNeg a) = (isNeg b) then pinf else ninf

/-- Division; finite quotients exact (rounding not modelled).  Division of
a nonzero finite value by zero gives a signed infinity, `0/0` gives NaN. -/
def fdiv : F64 → F64 → F64
  | nan, _ => nan
  | _, nan => nan
  | pinf, pinf => nan
  | pinf, ninf => nan
  | ninf, pinf => nan
  | ninf, ninf => nan
  | pinf, fin q => if q < 0 then ninf else pinf
  | ninf, fin q => if q < 0 then pinf else ninf
  | fin _, pinf => fin 0
  | fin _, ninf => fin 0
  | fin a, fin b =>
    if b = 0 then
      if a = 0 then nan else if a < 0 then ninf else pinf
    else fin (a / b)

/-- Truncation toward zero of a rational, as in a C integer cast. -/
def rtrunc (q : ℚ) : Int := if q < 0 then ⌈q⌉ else ⌊q⌋

/-- The C `fmod`: NaN for NaN/infinite dividend or zero divisor; the
dividend for an infinite divisor; otherwise the truncated remainder. -/
def fmod : F64 → F64 → F64
  | nan, _ => nan
  | _, nan => nan
  | pinf, _ => nan
  | ninf, _ => nan
  | fin a, pinf => fin a
  | fin a, ninf => fin a
  | fin a, fin b =>
    if b = 0 then nan else fin (a - (rtrunc (a / b)) * b)

end F64

/-! ## Error flags, kinds and values -/

/-- The `enum flag` bits carried by an error value (the `FLAG_GLOBAL` bit
lives on `Value.object` instead, as in the C it marks `OBJECT_KIND`). -/
structure ErrFlag where
  chain : Bool := false
  esyntax : Bool := false
  eoom : Bool := false
  eundefined : Bool := false
  enotfunc : Bool := false
  emsg : Bool := false
  eunsupkeyword : Bool := false
deriving DecidableEq, Repr

/-- The `enum kind` of `struct value`. -/
inductive Kind where
  | undef | null | err | float | int | uint | str | bool | func | json
  | object | arr
deriving DecidableEq, Repr

/-- Structural model of a JSON document, standing in for the raw JSON
bytes that `JSON_KIND` values borrow in the C (the external JSON walker
is out of scope of src/; its traversal is modelled structurally). -/
inductive Json where
  | jnull
  | jtrue
  | jfalse
  | jnum (f : F64)
  | jstr (s : Bytes)
  | jarr (elems : List Json)
  | jobj (pairs : List (Bytes × Json))

/-- Model of `struct value`.  `int` payloads are mathematical integers
(two's-complement wrapping is applied explicitly by the operators that
can overflow), `uint` payloads are naturals reduced mod `2^64`,
function pointers are table indices. -/
inductive Value where
  | undef
  | null
  | err (flag : ErrFlag) (str : Bytes)
  | float (f : F64)
  | int (i : Int)
  | uint (u : Nat)
  | str (s : Bytes)
  | bool (t : Bool)
  | func (fid : Nat)
  | json (j : Json)
  | object (global : Bool) (tag : Nat)
  | arr (items : List Value)

/-- The kind tag of a value, as read from `value.kind` in the C. -/
def Value.kind : Value → Kind
  | .undef => .undef
  | .null => .null
  | .err _ _ => .err
  | .float _ => .float
  | .int _ => .int
  | .uint _ => .uint
  | .str _ => .str
  | .bool _ => .bool
  | .func _ => .func
  | .json _ => .json
  | .object _ _ => .object
  | .arr _ => .arr

/-- The `.t` union member: the boolean payload (only read on values the C
has just built with `make_bool`). -/
def Value.t : Value → Bool
  | .bool t => t
  | _ => false

/-- The `undefined()` / `make_undefined()` constructors (both produce the
all-zero value of kind `UNDEF_KIND`). -/
def make_undefined : Value := .undef

def make_null : Value := .null

def make_bool (t : Bool) : Value := .bool t

def make_float (x : F64) : Value := .float x

def make_int (x : Int) : Value := .int x

def make_uint (x : Nat) : Value := .uint x

def make_string (s : Bytes) : Value := .str s

def make_array (items : List Value) : Value := .arr items

/-- The global-receiver marker: an object value with `FLAG_GLOBAL`. -/
def make_global : Value := .object true 0

def err_syn : Value := .err { esyntax := true } []

def err_oom : Value := .err { eoom := true } []

def err_notfunc (ident : Bytes) : Value := .err { enotfunc := true } ident

def err_undefined (ident : Bytes) (chain : Bool) : Value :=
  .err { eundefined := true, chain := chain } ident

def err_msg (msg : Bytes) : Value := .err { emsg := true } msg

def err_unsupported_keyword (ident : Bytes) : Value :=
  .err { esyntax := true, eunsupkeyword := true } ident

/-- The `is_err` predicate. -/
def is_err : Value → Bool
  | .err _ _ => true
  | _ => false

/-- The `isnum` helper of the C. -/
def isnum (a : Value) : Bool :=
  match a.kind with
  | .float | .int | .uint | .bool | .null | .undef => true
  | _ => false

/-! ## Integer limits and wrapping -/

def U64_MOD : Nat := 2 ^ 64

def U64_MAX : Nat := 2 ^ 64 - 1

def I64_MAX : Int := 2 ^ 63 - 1

def I64_MIN : Int := -(2 ^ 63)

/-- Two's-complement wrap of a mathematical integer into int64 range. -/
def wrap_i64 (x : Int) : Int := ((x + 2 ^ 63) % (2 ^ 64 : Int)) - 2 ^ 63

/-- Wrap of a natural into uint64 range. -/
def wrap_u64 (x : Nat) : Nat := x % U64_MOD

/-! ## Scalar conversions (`conv_*` of the C) -/

def conv_ttoi (t : Bool) : Int := if t then 1 else 0

def conv_ttou (t : Bool) : Nat := if t then 1 else 0

def conv_ttof (t : Bool) : F64 := .fin (if t then 1 else 0)

/-- The C `conv_ftot`: `f < 0 || f > 0` (false on NaN and on zero). -/
def conv_ftot (f : F64) : Bool := F64.lt f (.fin 0) || F64.lt (.fin 0) f

/-- The double constants of the C: nearest doubles below the integer-kind
boundaries. -/
def UINT64_MAX_FLOAT : ℚ := 18446744073709549568

def INT64_MAX_FLOAT : ℚ := 9223372036854774784

def INT64_MIN_FLOAT : ℚ := -9223372036854774784

/-- The C `conv_ftoi`: NaN to 0; within the int53 safe envelope a plain
truncating cast; outside it `ceil`/`floor` then a clamp against the
approximate int64 boundary.  Infinities take the outside-envelope path. -/
def conv_ftoi (f : F64) : Int :=
  match f with
  | .nan => 0
  | .pinf => I64_MAX
  | .ninf => I64_MIN
  | .fin q =>
    if q < -9007199254740991 ∨ 9007199254740991 < q then
      if q < 0 then
        (if (⌈q⌉ : ℚ) < INT64_MIN_FLOAT then I64_MIN else ⌈q⌉)
      else
        (if INT64_MAX_FLOAT < (⌊q⌋ : ℚ) then I64_MAX else ⌊q⌋)
    else F64.rtrunc q

/-- The C `conv_ftou`: NaN and negatives to 0; within the envelope a
truncating cast; above it `floor` then a clamp against the approximate
uint64 boundary. -/
def conv_ftou (f : F64) : Nat :=
  match f with
  | .nan => 0
  | .ninf => 0
  | .pinf => U64_MAX
  | .fin q =>
    if q < 0 then 0
    else if 9007199254740991 < q then
      (if UINT64_MAX_FLOAT < (⌊q⌋ : ℚ) then U64_MAX else (⌊q⌋).toNat)
    else (F64.rtrunc q).toNat

def conv_itot (i : Int) : Bool := i ≠ 0

/-- Int64 to double; exact in the model (the C cast rounds above 2^53). -/
def conv_itof (i : Int) : F64 := .fin i

def conv_itou (i : Int) : Nat := if i < 0 then 0 else i.toNat

def conv_utot (u : Nat) : Bool := u ≠ 0

/-- Uint64 to double; exact in the model (the C cast rounds above 2^53). -/
def conv_utof (u : Nat) : F64 := .fin u

def conv_utoi (u : Nat) : Int := if I64_MAX < (u : Int) then I64_MAX else u

/-! ## Whitespace, digits, and the libc number parsers -/

/-- The `isws` helper (also the byte set of C `isspace`). -/
def isws (c : Nat) : Bool :=
  c = 9 || c = 10 || c = 11 || c = 12 || c = 13 || c = 32

/-- The `trim` helper: strip ASCII whitespace from both ends. -/
def trim (s : Bytes) : Bytes :=
  ((s.dropWhile isws).reverse.dropWhile isws).reverse

def isDigitB (c : Nat) : Bool := 48 ≤ c && c ≤ 57

def isHexB (c : Nat) : Bool :=
  isDigitB c || (97 ≤ c && c ≤ 102) || (65 ≤ c && c ≤ 70)

def hexVal (c : Nat) : Nat :=
  if isDigitB c then c - 48 else if 97 ≤ c then c - 87 else c - 55

def digitsToNat (base : Nat) (ds : Bytes) : Nat :=
  ds.foldl (fun acc c => acc * base + hexVal c) 0

/-- Shared scanner of `strtoull`/`strtoll`: skip whitespace, read an
optional sign, an optional `0x` prefix in base 16 (only when a hex digit
follows, as in libc), then a maximal run of digits.  Returns the sign,
the digit value when at least one digit was read, and the number of bytes
of the subject sequence (0 when no conversion was performed, matching
`end == nptr`).  The C parses the NUL-terminated buffer; the model parses
the slice, which agrees at every call site of the evaluator. -/
def strto_core (s : Bytes) (base : Nat) : Bool × Option Nat × Nat :=
  let s1 := s.dropWhile isws
  let wsn := s.length - s1.length
  let (neg, s2, sgn) :=
    match s1 with
    | 43 :: r => (false, r, 1)
    | 45 :: r => (true, r, 1)
    | _ => (false, s1, 0)
  let (s3, pfxn) :=
    if base = 16 then
      match s2 with
      | 48 :: x :: r =>
        if (x = 120 || x = 88) && (match r with | d :: _ => isHexB d | [] => false)
        then (r, 2) else (s2, 0)
      | _ => (s2, 0)
    else (s2, 0)
  let pred := if base = 16 then isHexB else isDigitB
  let ds := s3.takeWhile pred
  match ds with
  | [] => (neg, none, 0)
  | _ => (neg, some (digitsToNat base ds), wsn + sgn + pfxn + ds.length)

/-- Model of `strtoull`: saturates at `ULLONG_MAX` on overflow, wraps the
negation of a `-`-signed value into uint64 range. -/
def strtoull_model (s : Bytes) (base : Nat) : Nat × Nat :=
  match strto_core s base with
  | (_, none, _) => (0, 0)
  | (neg, some v, n) =>
    (if U64_MOD ≤ v then U64_MAX
     else if neg then (U64_MOD - v) % U64_MOD else v, n)

/-- Model of `strtoll`: saturates at the int64 extremes on overflow. -/
def strtoll_model (s : Bytes) (base : Nat) : Int × Nat :=
  match strto_core s base with
  | (_, none, _) => (0, 0)
  | (neg, some v, n) =>
    (if neg then (if 2 ^ 63 < v then I64_MIN else -(v : Int))
     else (if I64_MAX < (v : Int) then I64_MAX else (v : Int)), n)

/-- Model of `strtod` on the decimal forms the evaluator can reach:
optional whitespace and sign, digits with an optional fraction and an
optional exponent.  The value is exact (IEEE rounding not modelled);
hexadecimal floats and the `inf`/`nan` spellings are not modelled, as no
call site of the evaluator can present them. -/
def strtod_model (s : Bytes) : ℚ × Nat :=
  let s1 := s.dropWhile isws
  let wsn := s.length - s1.length
  let (neg, s2, sgn) :=
    match s1 with
    | 43 :: r => (false, r, 1)
    | 45 :: r => (true, r, 1)
    | _ => (false, s1, 0)
  let ip := s2.takeWhile isDigitB
  let s3 := s2.drop ip.length
  let (fp, s4, dotn) :=
    match s3 with
    | 46 :: r => (r.takeWhile isDigitB, r.drop (r.takeWhile isDigitB).length, 1)
    | _ => ([], s3, 0)
  match ip, fp with
  | [], [] => (0, 0)
  | _, _ =>
    let mant : ℚ :=
      (digitsToNat 10 ip : ℚ) + (digitsToNat 10 fp : ℚ) / ((10 : ℚ) ^ fp.length)
    let (ex, exn) :=
      match s4 with
      | 101 :: r =>
        let (eneg, r2, esgn) :=
          match r with
          | 43 :: rr => (false, rr, 1)
          | 45 :: rr => (true, rr, 1)
          | _ => (false, r, 0)
        let ed := r2.takeWhile isDigitB
        (if ed = [] then ((0 : Int), 0)
         else ((if eneg then -(digitsToNat 10 ed : Int) else (digitsToNat 10 ed : Int)),
               1 + esgn + ed.length))
      | 69 :: r =>
        let (eneg, r2, esgn) :=
          match r with
          | 43 :: rr => (false, rr, 1)
          | 45 :: rr => (true, rr, 1)
          | _ => (false, r, 0)
        let ed := r2.takeWhile isDigitB
        (if ed = [] then ((0 : Int), 0)
         else ((if eneg then -(digitsToNat 10 ed : Int) else (digitsToNat 10 ed : Int)),
               1 + esgn + ed.length))
      | _ => ((0 : Int), 0)
    let q0 : ℚ := mant * (10 : ℚ) ^ ex
    ((if neg then -q0 else q0), wsn + sgn + ip.length + dotn + fp.length + exn)

/-- The `parse_uint` helper: conversion must consume the whole range. -/
def parse_uint (s : Bytes) (base : Nat) : Option Nat :=
  let (v, n) := strtoull_model s base
  if n = s.length then some v else none

/-- The `parse_int` helper: conversion must consume the whole range. -/
def parse_int (s : Bytes) (base : Nat) : Option Int :=
  let (v, n) := strtoll_model s base
  if n = s.length then some v else none

/-- The `parse_float` helper: conversion must consume the whole range. -/
def parse_float (s : Bytes) : Option F64 :=
  let (q, n) := strtod_model s
  if n = s.length then some (F64.fin q) else none

/-! ## String-to-number conversions -/

def conv_atot (a : Bytes) : Bool := 0 < a.length

def isnumch (c : Nat) : Bool := isDigitB c || c = 46

/-- The `conv_atof` of the C.  The C reads `a[1]` even when `alen = 1`
(one past the slice); its intent and effect at the evaluator's call sites
is the length-1 test modelled here. -/
def conv_atof (a : Bytes) : F64 :=
  match a with
  | [] => F64.nan
  | c0 :: rest =>
    if a.length = 1 || isnumch c0
       || (c0 = 45 && (match rest with | c1 :: _ => isnumch c1 | [] => false))
       || (c0 = 43 && (match rest with | c1 :: _ => isnumch c1 | [] => false)) then
      let (q, n) := strtod_model a
      if n = a.length then F64.fin q else F64.nan
    else if a = bytesR (r"Infinity") then F64.pinf
    else if a = bytesR (r"+Infinity") then F64.pinf
    else if a = bytesR (r"-Infinity") then F64.ninf
    else F64.nan

/-- The `conv_atoi` of the C: integer parse first, else float-then-int. -/
def conv_atoi (a : Bytes) : Int :=
  match a with
  | [] => 0
  | _ =>
    let (i, n) := strtoll_model a 10
    if n = a.length then i else conv_ftoi (conv_atof a)

/-- The `conv_atou` of the C.  Note the fallback goes through `conv_ftoi`
(not `conv_ftou`) and the signed result is cast to uint64, hence the
explicit wrap. -/
def conv_atou (a : Bytes) : Nat :=
  match a with
  | [] => 0
  | _ =>
    let (u, n) := strtoull_model a 10
    if n = a.length then u
    else ((conv_ftoi (conv_atof a)).emod ((2 : Int) ^ 64)).toNat

/-! ## Value coercions (`to_f64`, `to_i64`, `to_u64`, `to_bool`) -/

/-- The numeric coercion of a `JSON_KIND` value.  In the C this is the
`JSON_KIND` arm of `to_f64`, which re-parses the raw bytes and, for a
single-element array, recurses through `to_f64 (make_json elem)`; that
composition is inlined here per element shape so the recursion stays on
the JSON structure. -/
def jsonToF64 : Json → F64
  | .jarr [] => .fin 0
  | .jarr [x] =>
    match x with
    | .jnum f => f
    | .jstr s => conv_atof s
    | .jnull => .fin 0
    | .jtrue => conv_ttof true
    | .jfalse => conv_ttof false
    | .jarr es => jsonToF64 (.jarr es)
    | .jobj ps => jsonToF64 (.jobj ps)
  | _ => .nan

/-- The `to_f64` coercion of the C. -/
def to_f64 : Value → F64
  | .float f => f
  | .undef => .nan
  | .null => .fin 0
  | .bool t => conv_ttof t
  | .int i => conv_itof i
  | .uint u => conv_utof u
  | .str s => conv_atof s
  | .arr [] => .fin 0
  | .arr [x] => to_f64 x
  | .arr _ => .nan
  | .json j => jsonToF64 j
  | _ => .nan

/-- The `to_i64` coercion of the C. -/
def to_i64 : Value → Int
  | .int i => i
  | .null => 0
  | .bool t => conv_ttoi t
  | .float f => conv_ftoi f
  | .uint u => conv_utoi u
  | .str s => conv_atoi s
  | v => conv_ftoi (to_f64 v)

/-- The `to_u64` coercion of the C. -/
def to_u64 : Value → Nat
  | .uint u => u
  | .bool t => conv_ttou t
  | .float f => conv_ftou f
  | .int i => conv_itou i
  | .str s => conv_atou s
  | v => conv_ftou (to_f64 v)

/-- The `to_bool` coercion of the C. -/
def to_bool : Value → Bool
  | .bool t => t
  | .undef => false
  | .null => false
  | .float f => conv_ftot f
  | .int i => conv_itot i
  | .uint u => conv_utot u
  | .str s => conv_atot s
  | _ => true

/-! ## String ordering -/

/-- Byte-lexicographic strict order (ties broken by length), as in the C
`string_less`. -/
def string_less : Bytes → Bytes → Bool
  | _, [] => false
  | [], _ :: _ => true
  | a :: as, b :: bs =>
    if a < b then true else if b < a then false else string_less as bs

def tolower_b (c : Nat) : Nat := if 65 ≤ c ∧ c ≤ 90 then c + 32 else c

/-- Case-insensitive variant, as in `string_less_insensitive`. -/
def string_less_insensitive : Bytes → Bytes → Bool
  | _, [] => false
  | [], _ :: _ => true
  | a :: as, b :: bs =>
    if tolower_b a < tolower_b b then true
    else if tolower_b b < tolower_b a then false
    else string_less_insensitive as bs

/-! ## Value formatting (`write_value` and friends) -/

def natToDec (n : Nat) : Bytes := (Nat.toDigits 10 n).map Char.toNat

def write_int (i : Int) : Bytes :=
  if i < 0 then 45 :: natToDec (-i).toNat else natToDec i.toNat

def write_uint (u : Nat) : Bytes := natToDec u

/-- Decimal expansion of the fractional part, up to `k` digits. -/
def fracDigits : Nat → ℚ → Bytes
  | 0, _ => []
  | k + 1, r =>
    if r = 0 then []
    else
      let r10 := r * 10
      let d := (⌊r10⌋).toNat
      (48 + d) :: fracDigits k (r10 - (⌊r10⌋ : ℚ))

/-- Modelled from the spec: the shortest-round-trip decimal formatter
(the external `ryu` library, `'j'` format) is out of scope; finite values
are rendered here as exact decimals with at most 17 fractional digits. -/
def qToDecimal (q : ℚ) : Bytes :=
  let sgn : Bytes := if q < 0 then [45] else []
  let aq := |q|
  let ip := (⌊aq⌋).toNat
  let fd := fracDigits 17 (aq - (⌊aq⌋ : ℚ))
  sgn ++ natToDec ip ++ (match fd with | [] => [] | _ => 46 :: fd)

def write_double (f : F64) : Bytes :=
  match f with
  | .nan => bytesR (r"NaN")
  | .pinf => bytesR (r"Infinity")
  | .ninf => bytesR (r"-Infinity")
  | .fin q => qToDecimal q

/-- The `write_error` renderer. -/
def write_error (flag : ErrFlag) (s : Bytes) : Bytes :=
  if flag.enotfunc then
    bytesR (r"TypeError: ") ++ s ++ bytesR (r" is not a function")
  else if flag.esyntax then
    bytesR (r"SyntaxError") ++
      (if flag.eunsupkeyword then
        bytesR (r": Unsupported keyword ") ++ [39] ++ s ++ [39]
      else [])
  else if flag.eundefined then
    (if flag.chain then
      bytesR (r"TypeError: Cannot read properties of undefined (reading ") ++
        [39] ++ s ++ [39, 41]
    else
      bytesR (r"ReferenceError: Can") ++ [39] ++ bytesR (r"t find variable: ") ++
        [39] ++ s ++ [39])
  else if flag.eoom then bytesR (r"MemoryError: Out of memory")
  else s

mutual

/-- Re-serialization of a JSON value; stands in for the raw borrowed
bytes that the C writes back verbatim for `JSON_KIND`. -/
def write_json : Json → Bytes
  | .jnull => bytesR (r"null")
  | .jtrue => bytesR (r"true")
  | .jfalse => bytesR (r"false")
  | .jnum f => write_double f
  | .jstr s => 34 :: s ++ [34]
  | .jarr es => 91 :: write_json_list es ++ [93]
  | .jobj ps => 123 :: write_json_obj ps ++ [125]

def write_json_list : List Json → Bytes
  | [] => []
  | j :: rest =>
    match rest with
    | [] => write_json j
    | _ => write_json j ++ 44 :: write_json_list rest

def write_json_obj : List (Bytes × Json) → Bytes
  | [] => []
  | (k, v) :: rest =>
    match rest with
    | [] => 34 :: k ++ [34, 58] ++ write_json v
    | _ => 34 :: k ++ [34, 58] ++ write_json v ++ 44 :: write_json_obj rest

end

mutual

/-- The `write_value` renderer (arrays are comma-joined). -/
def write_value : Value → Bytes
  | .undef => bytesR (r"undefined")
  | .null => bytesR (r"null")
  | .err f s => write_error f s
  | .float f => write_double f
  | .int i => write_int i
  | .uint u => write_uint u
  | .str s => s
  | .bool t => if t then bytesR (r"true") else bytesR (r"false")
  | .func _ => bytesR (r"[Function]")
  | .json j => write_json j
  | .object _ _ => bytesR (r"[Object]")
  | .arr items => write_value_list items

def write_value_list : List Value → Bytes
  | [] => []
  | v :: rest =>
    match rest with
    | [] => write_value v
    | _ => write_value v ++ 44 :: write_value_list rest

end

/-- The `to_str` helper: strings pass through, everything else renders
through the value formatter (the bounded-buffer retry of the C is a pure
optimization and is collapsed). -/
def to_str (a : Value) : Bytes :=
  match a with
  | .str s => s
  | _ => write_value a

/-! ## Environment and evaluation context -/

/-- The host environment (`struct xv_env`), plus the table standing in
for the function pointers carried by `FUNC_KIND` values. -/
structure Env where
  no_case : Bool := false
  ref : Option (Value → Bytes → Value) := none
  funcs : Nat → Value → Value → Value := fun _ _ _ => Value.undef

/-- The `struct eval_context` fields the evaluator reads (`expr`/`len`
are stored but never read in the C and are omitted; the iterator is
modelled as a flag, emitted values being returned alongside results). -/
structure EvalContext where
  steps : List Nat
  iter : Bool
  env : Option Env

/-- The function table reachable from a context (host function pointers;
with no environment no `FUNC_KIND` value can arise, so the default is
never applied to a reachable value). -/
def ctx_funcs (ctx : EvalContext) : Nat → Value → Value → Value :=
  match ctx.env with
  | some e => e.funcs
  | none => fun _ _ _ => Value.undef

/-! ## The operator kernel -/

def vcoalesce (a b : Value) : Value :=
  match a with
  | .undef => b
  | .null => b
  | _ => a

def vor (a b : Value) : Value := make_bool (to_bool a || to_bool b)

def vand (a b : Value) : Value := make_bool (to_bool a && to_bool b)

/-- Two's-complement bit pattern of an int64 value. -/
def i64_bits (x : Int) : Nat := (x.emod ((2 : Int) ^ 64)).toNat

def i64_land (x y : Int) : Int := wrap_i64 ((i64_bits x &&& i64_bits y : Nat) : Int)

def i64_lxor (x y : Int) : Int := wrap_i64 ((i64_bits x ^^^ i64_bits y : Nat) : Int)

def i64_lor (x y : Int) : Int := wrap_i64 ((i64_bits x ||| i64_bits y : Nat) : Int)

def vband (a b : Value) : Value :=
  match a, b with
  | .int x, .int y => make_int (i64_land x y)
  | .uint x, .uint y => make_uint (x &&& y)
  | _, _ => make_float (conv_itof (i64_land (to_i64 a) (to_i64 b)))

def vbxor (a b : Value) : Value :=
  match a, b with
  | .int x, .int y => make_int (i64_lxor x y)
  | .uint x, .uint y => make_uint (x ^^^ y)
  | _, _ => make_float (conv_itof (i64_lxor (to_i64 a) (to_i64 b)))

def vbor (a b : Value) : Value :=
  match a, b with
  | .int x, .int y => make_int (i64_lor x y)
  | .uint x, .uint y => make_uint (x ||| y)
  | _, _ => make_float (conv_itof (i64_lor (to_i64 a) (to_i64 b)))

/-- The `vlt` comparator: same-kind fast paths for numbers and strings
(the latter honouring the case-insensitive flag), everything else through
`to_f64`. -/
def vlt (a b : Value) (ctx : EvalContext) : Value :=
  match a, b with
  | .float x, .float y => make_bool (F64.lt x y)
  | .int x, .int y => make_bool (decide (x < y))
  | .uint x, .uint y => make_bool (decide (x < y))
  | .str x, .str y =>
    (match ctx.env with
     | some e =>
       if e.no_case then make_bool (string_less_insensitive x y)
       else make_bool (string_less x y)
     | none => make_bool (string_less x y))
  | _, _ => make_bool (F64.lt (to_f64 a) (to_f64 b))

def vlte (a b : Value) (ctx : EvalContext) : Value :=
  let t := vlt a b ctx
  if t.t then t else make_bool (!(vlt b a ctx).t)

def vgt (a b : Value) (ctx : EvalContext) : Value := vlt b a ctx

def vgte (a b : Value) (ctx : EvalContext) : Value :=
  let t := vgt a b ctx
  if t.t then t else make_bool (!(vgt b a ctx).t)

/-- The `veq` comparator: cross-kind operands compare as doubles, same
kinds are equal iff neither is `vlt`-below the other. -/
def veq (a b : Value) (ctx : EvalContext) : Value :=
  if a.kind ≠ b.kind then make_bool (F64.feq (to_f64 a) (to_f64 b))
  else
    let t := vlt a b ctx
    if t.t then make_bool false
    else make_bool (!(vlt b a ctx).t)

def vneq (a b : Value) (ctx : EvalContext) : Value :=
  make_bool (!(veq a b ctx).t)

def vseq (a b : Value) (ctx : EvalContext) : Value :=
  if a.kind = b.kind then veq a b ctx else make_bool false

def vsneq (a b : Value) (ctx : EvalContext) : Value :=
  make_bool (!(vseq a b ctx).t)

def vmul (a b : Value) : Value :=
  match a, b with
  | .float x, .float y => make_float (F64.fmul x y)
  | .int x, .int y => make_int (wrap_i64 (x * y))
  | .uint x, .uint y => make_uint (wrap_u64 (x * y))
  | _, _ => make_float (F64.fmul (to_f64 a) (to_f64 b))

/-- The `vdiv` operator: same-integer-kind division returns NaN (float)
on a zero divisor; mixed kinds fall through to the float path. -/
def vdiv (a b : Value) : Value :=
  match a, b with
  | .float x, .float y => make_float (F64.fdiv x y)
  | .int x, .int y =>
    if y = 0 then make_float F64.nan else make_int (Int.tdiv x y)
  | .uint x, .uint y =>
    if y = 0 then make_float F64.nan else make_uint (x / y)
  | _, _ => make_float (F64.fdiv (to_f64 a) (to_f64 b))

/-- The `vmod` operator: same-integer-kind modulo returns NaN (float) on
a zero divisor; everything else goes through `fmod` on doubles. -/
def vmod (a b : Value) : Value :=
  match a, b with
  | .int x, .int y =>
    if y = 0 then make_float F64.nan else make_int (Int.tmod x y)
  | .uint x, .uint y =>
    if y = 0 then make_float F64.nan else make_uint (x % y)
  | _, _ => make_float (F64.fmod (to_f64 a) (to_f64 b))

def string_concat (a b : Bytes) : Value := make_string (a ++ b)

/-- The `vadd` operator: same-kind fast paths (string concatenation for
strings), numeric pairs as doubles, anything else stringified and
concatenated. -/
def vadd (a b : Value) : Value :=
  match a, b with
  | .float x, .float y => make_float (F64.fadd x y)
  | .int x, .int y => make_int (wrap_i64 (x + y))
  | .uint x, .uint y => make_uint (wrap_u64 (x + y))
  | .str x, .str y => string_concat x y
  | .bool _, .bool _ => make_float (F64.fadd (to_f64 a) (to_f64 b))
  | .undef, .undef => make_float (F64.fadd (to_f64 a) (to_f64 b))
  | .null, .null => make_float (F64.fadd (to_f64 a) (to_f64 b))
  | _, _ =>
    if isnum a && isnum b then make_float (F64.fadd (to_f64 a) (to_f64 b))
    else string_concat (to_str a) (to_str b)

def vsub (a b : Value) : Value :=
  match a, b with
  | .float x, .float y => make_float (F64.fsub x y)
  | .int x, .int y => make_int (wrap_i64 (x - y))
  | .uint x, .uint y => make_uint ((x + U64_MOD - y % U64_MOD) % U64_MOD)
  | _, _ => make_float (F64.fsub (to_f64 a) (to_f64 b))

/-! ## JSON construction and traversal -/

/-- The `make_json` constructor: scalar JSON values become scalar values,
containers stay `JSON_KIND` (string unescaping is already reflected in
the structural payload; a non-existing parse, possible only for host
input that is not well-formed JSON, is not modelled). -/
def make_json : Json → Value
  | .jstr s => make_string s
  | .jnum f => make_float f
  | .jnull => make_null
  | .jtrue => make_bool true
  | .jfalse => make_bool false
  | .jarr es => .json (.jarr es)
  | .jobj ps => .json (.jobj ps)

def json_find_key : List (Bytes × Json) → Bytes → Option Json
  | [], _ => none
  | (k, v) :: rest, ident =>
    if k = ident then some v else json_find_key rest ident

def json_index : List Json → Nat → Option Json
  | [], _ => none
  | x :: _, 0 => some x
  | _ :: rest, n + 1 => json_index rest n

/-- The `JSON_KIND` arm of `get_ref_value`: object member by key
equality, array element by non-negative decimal index, everything else
(including a scalar, whose first child does not exist) undefined. -/
def json_walk (j : Json) (ident : Bytes) : Value :=
  match j with
  | .jobj pairs =>
    (match json_find_key pairs ident with
     | some v => make_json v
     | none => make_undefined)
  | .jarr elems =>
    let index := conv_atoi ident
    if 0 ≤ index then
      (match json_index elems index.toNat with
       | some v => make_json v
       | none => make_undefined)
    else make_undefined
  | _ => make_undefined

/-- The `get_ref_value` helper.  JSON receivers are walked inline; a
missing environment or callback yields the undefined-identifier error; a
host error returns immediately; an undefined result on an undefined
receiver becomes the chained undefined-identifier error; only then does
optional chaining convert a (necessarily just-synthesized) error into
undefined. -/
def get_ref_value (chain : Bool) (left : Value) (ident : Bytes)
    (opt_chain : Bool) (ctx : EvalContext) : Value :=
  match left with
  | .json j => json_walk j ident
  | _ =>
    match ctx.env with
    | none => err_undefined ident chain
    | some env =>
      match env.ref with
      | none => err_undefined ident chain
      | some ref =>
        let val := ref (if chain then left else make_global) ident
        if is_err val then val
        else
          let val2 := if val.kind = Kind.undef ∧ left.kind = Kind.undef
                      then err_undefined ident chain else val
          if is_err val2 ∧ opt_chain then make_undefined else val2

/-! ## Group scanning (`squash` / `read_group`) -/

def closech (open_ : Nat) : Nat :=
  if open_ = 40 then 41
  else if open_ = 91 then 93
  else if open_ = 123 then 125
  else open_

/-- The in-string scanner of `squash`: advances to the closing quote,
tracking the parity of the current backslash run (the C re-counts the
run backwards at each candidate close; the running count is the same).
Returns the absolute position of the close and the suffix starting at
it; running off the end returns the suffix `[]`. -/
def squash_instr : Nat → Bytes → Nat → Nat → Nat → Option (Nat × Bytes)
  | 0, _, _, _, _ => none
  | _ + 1, [], _, _, pos => some (pos, [])
  | f + 1, c :: rest, qch, run, pos =>
    if c = 92 then squash_instr f rest qch (run + 1) (pos + 1)
    else if c = qch then
      (if run % 2 = 1 then squash_instr f rest qch 0 (pos + 1)
       else some (pos, c :: rest))
    else squash_instr f rest qch 0 (pos + 1)

/-- The main scanning loop of `squash`: counts bracket depth, skips
quoted strings, and returns the length of the balanced group. -/
def squash_main : Nat → Bytes → Nat → Nat → Option Nat
  | 0, _, _, _ => none
  | _ + 1, [], _, _ => none
  | f + 1, c :: rest, dep, pos =>
    if c = 34 ∨ c = 39 then
      match squash_instr f rest c 0 (pos + 1) with
      | none => none
      | some (cpos, rem) =>
        match rem with
        | [] => none
        | _ :: rest2 =>
          if dep = 0 then some (cpos + 1)
          else squash_main f rest2 dep (cpos + 1)
    else if c = 123 ∨ c = 91 ∨ c = 40 then squash_main f rest (dep + 1) (pos + 1)
    else if c = 125 ∨ c = 93 ∨ c = 41 then
      (if dep = 1 then some (pos + 1)
       else squash_main f rest (dep - 1) (pos + 1))
    else squash_main f rest dep (pos + 1)

/-- The `squash` helper: length of the balanced group (ignoring nesting)
that starts at the head of `data`.  The loop fuel `length + 1` is ample:
every step consumes at least one byte. -/
def squash (data : Bytes) : Option Nat :=
  match data with
  | [] => none
  | c :: rest =>
    if c = 34 ∨ c = 39 then squash_main (data.length + 1) data 0 0
    else squash_main (data.length + 1) rest 1 1

/-- The `read_group` helper: a squashed group whose final byte matches
the opener. -/
def read_group (data : Bytes) : Option Nat :=
  match squash data with
  | none => none
  | some n =>
    match data with
    | [] => none
    | c :: _ =>
      if n < 2 then none
      else
        match data.get? (n - 1) with
        | some last => if last = closech c then some n else none
        | none => none

/-! ## Identifiers -/

def read_id_start_ch (c : Nat) : Bool :=
  c = 36 || c = 95 || (65 ≤ c && c ≤ 90) || (97 ≤ c && c ≤ 122)

def read_id_continue_ch (c : Nat) : Bool :=
  read_id_start_ch c || isDigitB c

/-- The `read_ident` helper: ASCII identifier prefix, or none. -/
def read_ident : Bytes → Option Bytes
  | [] => none
  | c :: rest =>
    if read_id_start_ch c then some (c :: rest.takeWhile read_id_continue_ch)
    else none

/-! ## String literals -/

def is_surrogate (cp : Nat) : Bool := 55296 < cp && cp < 57344

def decode_codepoint (cp1 cp2 : Nat) : Nat :=
  if 55296 ≤ cp1 ∧ cp1 < 56320 ∧ 56320 ≤ cp2 ∧ cp2 < 57344 then
    (((cp1 - 55296) <<< 10) ||| (cp2 - 56320)) + 65536
  else 65533

/-- The `\uXXXX` / `\u{...}` arm of `read_codepoint`: value of the
maximal hex run (as `strtol` reads it) and the number of bytes the C
consumes. -/
def read_codepoint_u (s : Bytes) : Nat × Nat :=
  match s with
  | 123 :: r =>
    let n := (match s.findIdx? (fun c => c = 125) with
              | some i => i + 1
              | none => s.length)
    (digitsToNat 16 (r.takeWhile isHexB), n)
  | _ => (digitsToNat 16 (s.takeWhile isHexB), 4)

/-- The `\xHH` arm of `read_codepoint`. -/
def read_codepoint_x (s : Bytes) : Nat × Nat :=
  (digitsToNat 16 (s.takeWhile isHexB), 2)

/-- The `write_codepoint` UTF-8 encoder, including the replacement of
out-of-range and surrogate code points. -/
def write_codepoint (r0 : Nat) : Bytes :=
  if r0 ≤ 127 then [r0]
  else if r0 ≤ 2047 then [192 + r0 / 64, 128 + r0 % 64]
  else if 1114111 < r0 ∨ (55296 ≤ r0 ∧ r0 ≤ 57343) then
    [224 + 65533 / 4096, 128 + (65533 / 64) % 64, 128 + 65533 % 64]
  else if r0 ≤ 65535 then [224 + r0 / 4096, 128 + (r0 / 64) % 64, 128 + r0 % 64]
  else [240 + r0 / 262144, 128 + (r0 / 4096) % 64, 128 + (r0 / 64) % 64,
        128 + r0 % 64]

/-- The `unescape_string` loop (escape validity was established by
`parse_string` beforehand; a trailing lone backslash, unreachable after
validation, produces nothing). -/
def unescape_loop : Nat → Bytes → Bytes
  | 0, _ => []
  | f + 1, rem =>
    match rem with
    | [] => []
    | 92 :: rest =>
      (match rest with
       | [] => []
       | e :: rest2 =>
         if e = 48 then 0 :: unescape_loop f rest2
         else if e = 98 then 8 :: unescape_loop f rest2
         else if e = 102 then 12 :: unescape_loop f rest2
         else if e = 110 then 10 :: unescape_loop f rest2
         else if e = 114 then 13 :: unescape_loop f rest2
         else if e = 116 then 9 :: unescape_loop f rest2
         else if e = 118 then 11 :: unescape_loop f rest2
         else if e = 117 then
           let cpn := read_codepoint_u rest2
           let after := rest2.drop cpn.2
           if is_surrogate cpn.1 then
             match after with
             | 92 :: 117 :: after2 =>
               if 6 ≤ after.length then
                 let cpn2 := read_codepoint_u after2
                 write_codepoint (decode_codepoint cpn.1 cpn2.1) ++
                   unescape_loop f (after2.drop cpn2.2)
               else write_codepoint cpn.1 ++ unescape_loop f after
             | _ => write_codepoint cpn.1 ++ unescape_loop f after
           else write_codepoint cpn.1 ++ unescape_loop f after
         else if e = 120 then
           let cpn := read_codepoint_x rest2
           write_codepoint cpn.1 ++ unescape_loop f (rest2.drop cpn.2)
         else e :: unescape_loop f rest2)
    | c :: rest => c :: unescape_loop f rest

def unescape_string (s : Bytes) : Bytes := unescape_loop (s.length + 1) s

/-- The validation scan of `parse_string`: returns the index of the
closing quote and whether any escape was seen.  Control bytes, malformed
escapes, digits 1-9 after a backslash, and a missing close all fail. -/
def parse_string_scan : Nat → Bytes → Nat → Bool → Nat → Option (Nat × Bool)
  | 0, _, _, _, _ => none
  | f + 1, rem, qch, esc, i =>
    match rem with
    | [] => none
    | c :: rest =>
      if c < 32 then none
      else if c = 92 then
        (match rest with
         | [] => none
         | e :: rest2 =>
           if e = 117 then
             match rest2 with
             | 123 :: rest3 =>
               (match rest3.takeWhile isHexB, rest3.drop (rest3.takeWhile isHexB).length with
                | [], _ => none
                | _ :: _, 125 :: rest4 =>
                  parse_string_scan f rest4 qch true
                    (i + 3 + (rest3.takeWhile isHexB).length + 1)
                | _, _ => none)
             | h1 :: h2 :: h3 :: h4 :: rest4 =>
               if isHexB h1 && isHexB h2 && isHexB h3 && isHexB h4 then
                 parse_string_scan f rest4 qch true (i + 6)
               else none
             | _ => none
           else if e = 120 then
             match rest2 with
             | h1 :: h2 :: rest3 =>
               if isHexB h1 && isHexB h2 then
                 parse_string_scan f rest3 qch true (i + 4)
               else none
             | _ => none
           else if 49 ≤ e ∧ e ≤ 57 then none
           else parse_string_scan f rest2 qch true (i + 2))
      else if c = qch then some (i, esc)
      else parse_string_scan f rest qch esc (i + 1)

/-- The `parse_string` helper: validates a quoted literal and returns the
(unescaped when needed) contents plus the number of bytes consumed
including both quotes. -/
def parse_string (expr : Bytes) : Option (Bytes × Nat) :=
  match expr with
  | [] => none
  | q :: rest =>
    if expr.length < 2 then none
    else
      match parse_string_scan (expr.length + 1) rest q false 1 with
      | none => none
      | some (i, esc) =>
        let raw := (expr.drop 1).take (i - 1)
        some ((if esc then unescape_string raw else raw), i + 1)

/-! ## Precedence steps

The C encodes each precedence level as a one-hot bit (`STEP_COMMA = 2`,
doubling at each level) and a context's step set as the bitwise or of
those bits; the next-finer level of a step is `step << 1`.  Here the
levels carry consecutive indices in the same order, a step set is the
list of indices it holds, and the next-finer level is `step + 1`; the
order of levels, the membership test `(steps & s) == s` and the
accumulation `steps |= op_steps[ch]` are preserved exactly. -/

def STEP_COMMA : Nat := 1

def STEP_TERNS : Nat := 2

def STEP_LOGICAL_OR : Nat := 3

def STEP_LOGICAL_AND : Nat := 4

def STEP_BITWISE_OR : Nat := 5

def STEP_BITWISE_XOR : Nat := 6

def STEP_BITWISE_AND : Nat := 7

def STEP_EQUALITY : Nat := 8

def STEP_COMPS : Nat := 9

def STEP_SUMS : Nat := 10

def STEP_FACTS : Nat := 11

/-- The `op_steps` table: which precedence levels a byte can trigger.
The C packs these as a bitmask; here each entry lists its mask bits. -/
def op_steps (c : Nat) : List Nat :=
  if c = 33 then [STEP_EQUALITY]
  else if c = 37 then [STEP_FACTS]
  else if c = 38 then [STEP_LOGICAL_AND, STEP_BITWISE_AND]
  else if c = 42 then [STEP_FACTS]
  else if c = 43 then [STEP_SUMS]
  else if c = 44 then [STEP_COMMA]
  else if c = 45 then [STEP_SUMS]
  else if c = 47 then [STEP_FACTS]
  else if c = 58 then [STEP_TERNS]
  else if c = 60 then [STEP_COMPS]
  else if c = 61 then [STEP_COMPS, STEP_EQUALITY]
  else if c = 62 then [STEP_COMPS]
  else if c = 63 then [STEP_TERNS, STEP_LOGICAL_OR]
  else if c = 94 then [STEP_BITWISE_XOR]
  else if c = 124 then [STEP_LOGICAL_OR, STEP_BITWISE_OR]
  else []

/-- Step-mask membership test (`(ctx->steps & s) == s` in the C; the
mask is modelled as the list of level indices it holds). -/
def hasStep (steps : List Nat) (s : Nat) : Bool :=
  match steps with
  | [] => false
  | b :: bs => if b = s then true else hasStep bs s

/-- Setting one mask bit (`steps | s` for single-bit `s`). -/
def mask_or_one (steps : List Nat) (s : Nat) : List Nat :=
  if hasStep steps s then steps else s :: steps

/-- Folding one byte's step bits into the mask (`steps |= op_steps[c]`). -/
def mask_or_list (steps : List Nat) (l : List Nat) : List Nat :=
  l.foldl mask_or_one steps

def has_suffix (s suffix : Bytes) : Bool := suffix.isSuffixOf s

/-- The compile-time recursion cap `XV_MAXDEPTH`. -/
def XV_MAXDEPTH : Nat := 100

def maxdepth_msg : Bytes := bytesR (r"MaxDepthError")

/-! ## The precedence-climbing evaluator

Each function returns the computed value together with the list of
values handed to the comma iterator (`ctx->iter`) during the call, in
emission order.  The `fuel` parameter makes the mutual recursion
structural; every call edge consumes one unit, so the fuel needed equals
the depth of the C call stack, which the depth guard bounds; the entry
points supply vastly more. -/

/-- Result of an evaluator function: value and iterator emissions. -/
abbrev R := Value × List Value

/-- Fuel-exhaustion sentinel (unreachable for the fuel supplied at the
entry points; rendered as the resource-exhaustion error). -/
def fuel_out : R := (err_oom, [])

/-- Emission to the comma iterator when one is installed. -/
def emitIf (ctx : EvalContext) (v : Value) : List Value :=
  if ctx.iter then [v] else []

/-- The byte sub-range `expr + s`, length `n`. -/
def slice (e : Bytes) (s n : Nat) : Bytes := (e.drop s).take n

/-- Bytes that open a balanced group in the scan loops. -/
def is_open_ch (c : Nat) : Bool :=
  c = 40 || c = 91 || c = 123 || c = 34 || c = 39

/-- The leading-`!` stripping loop of `equal`: flips the negation flag
per bang, trimming in between; none on an empty operand. -/
def equal_strip : Nat → Bytes → Bool → Bool → Option (Bytes × Bool × Bool)
  | 0, _, _, _ => none
  | f + 1, e, neg, boolit =>
    match e with
    | [] => none
    | c :: rest =>
      if c = 33 then equal_strip f (trim rest) (!neg) true
      else some (c :: rest, neg, boolit)

set_option maxHeartbeats 4000000

mutual

/-- Scan loop of `eval_comma`: split on top-level commas, skipping
groups; each segment before a comma is evaluated with the iterator
disabled and then emitted; the final segment is evaluated with the
iterator as-is and then emitted. -/
def eval_comma_loop (fuel : Nat) (expr : Bytes) (i : Nat) (s : Nat) (ctx : EvalContext) (depth : Nat) : R :=
  match fuel with
  | 0 => fuel_out
  | f + 1 =>
    match expr.get? i with
    | none =>
      let r := eval_auto f (STEP_COMMA + 1) (slice expr s (expr.length - s)) ctx depth
      if is_err r.1 then r
      else (r.1, r.2 ++ emitIf ctx r.1)
    | some c =>
      if c = 44 then
        let r := eval_auto f (STEP_COMMA + 1) (slice expr s (i - s))
                   { ctx with iter := false } depth
        if is_err r.1 then r
        else
          let rest := eval_comma_loop f expr (i + 1) (i + 1) ctx depth
          (rest.1, r.2 ++ emitIf ctx r.1 ++ rest.2)
      else if is_open_ch c then
        match read_group (expr.drop i) with
        | none => (err_syn, [])
        | some glen => eval_comma_loop f expr (i + glen) s ctx depth
      else eval_comma_loop f expr (i + 1) s ctx depth
termination_by structural fuel

def eval_comma (fuel : Nat) (expr : Bytes) (ctx : EvalContext) (depth : Nat) : R :=
  match fuel with
  | 0 => fuel_out
  | f + 1 => eval_comma_loop f expr 0 0 ctx depth

termination_by structural fuel
/-- Scan loop of `eval_terns`: tracks ternary nesting (`tdepth`),
records the condition range at the first top-level `?`, and evaluates
condition plus the chosen branch at the matching `:`.  A `?` that starts
`??` or `?.` is skipped. -/
def eval_terns_loop (fuel : Nat) (expr : Bytes) (i : Nat) (tdepth : Int) (condlen : Nat) (s : Nat) (ctx : EvalContext) (depth : Nat) : R :=
  match fuel with
  | 0 => fuel_out
  | f + 1 =>
    match expr.get? i with
    | none =>
      if tdepth = 0 then eval_auto f (STEP_TERNS + 1) expr ctx depth
      else (err_syn, [])
    | some c =>
      if c = 63 then
        (match expr.get? (i + 1) with
         | some c2 =>
           if c2 = 63 ∨ c2 = 46 then
             eval_terns_loop f expr (i + 2) tdepth condlen s ctx depth
           else if tdepth = 0 then
             eval_terns_loop f expr (i + 1) 1 i (i + 1) ctx depth
           else eval_terns_loop f expr (i + 1) (tdepth + 1) condlen s ctx depth
         | none =>
           if tdepth = 0 then
             eval_terns_loop f expr (i + 1) 1 i (i + 1) ctx depth
           else eval_terns_loop f expr (i + 1) (tdepth + 1) condlen s ctx depth)
      else if c = 58 then
        (if tdepth = 1 then
          let cond := eval_expr f (slice expr 0 condlen) ctx depth
          if is_err cond.1 then cond
          else if to_bool cond.1 then
            let r := eval_expr f (slice expr s (i - s)) ctx depth
            (r.1, cond.2 ++ r.2)
          else
            let r := eval_expr f (expr.drop (i + 1)) ctx depth
            (r.1, cond.2 ++ r.2)
        else eval_terns_loop f expr (i + 1) (tdepth - 1) condlen s ctx depth)
      else if is_open_ch c then
        match read_group (expr.drop i) with
        | none => (err_syn, [])
        | some glen => eval_terns_loop f expr (i + glen) tdepth condlen s ctx depth
      else eval_terns_loop f expr (i + 1) tdepth condlen s ctx depth
termination_by structural fuel

def eval_terns (fuel : Nat) (expr : Bytes) (ctx : EvalContext) (depth : Nat) : R :=
  match fuel with
  | 0 => fuel_out
  | f + 1 => eval_terns_loop f expr 0 0 0 0 ctx depth

termination_by structural fuel
/-- Fold step of the `||` / `??` level: evaluate the right operand at
the next level, propagate its error, then apply the pending operator. -/
def logical_or (fuel : Nat) (left : Value) (op : Nat) (expr0 : Bytes) (ctx : EvalContext) (depth : Nat) : R :=
  match fuel with
  | 0 => fuel_out
  | f + 1 =>
    match trim expr0 with
    | [] => (err_syn, [])
    | e =>
      let r := eval_auto f (STEP_LOGICAL_OR + 1) e ctx depth
      if is_err r.1 then r
      else if op = 124 then (vor left r.1, r.2)
      else if op = 63 then (vcoalesce left r.1, r.2)
      else r

termination_by structural fuel
/-- Scan loop of `eval_logical_or`: splits on `||` and `??`; a single
`|` (bitwise) or a `?` not forming `??` skips two bytes; `?.` is
skipped; a trailing operator byte is a syntax error. -/
def eval_logical_or_loop (fuel : Nat) (expr : Bytes) (i : Nat) (s : Nat) (left : Value) (op : Nat) (ctx : EvalContext) (depth : Nat) : R :=
  match fuel with
  | 0 => fuel_out
  | f + 1 =>
    match expr.get? i with
    | none => logical_or f left op (slice expr s (expr.length - s)) ctx depth
    | some c =>
      if c = 63 ∧ expr.get? (i + 1) = some 46 then
        eval_logical_or_loop f expr (i + 2) s left op ctx depth
      else if c = 63 ∨ c = 124 then
        (match expr.get? (i + 1) with
         | none => (err_syn, [])
         | some c2 =>
           if c2 ≠ c then eval_logical_or_loop f expr (i + 2) s left op ctx depth
           else
             let r := logical_or f left op (slice expr s (i - s)) ctx depth
             if is_err r.1 then r
             else
               let rest := eval_logical_or_loop f expr (i + 2) (i + 2) r.1 c ctx depth
               (rest.1, r.2 ++ rest.2))
      else if is_open_ch c then
        match read_group (expr.drop i) with
        | none => (err_syn, [])
        | some glen => eval_logical_or_loop f expr (i + glen) s left op ctx depth
      else eval_logical_or_loop f expr (i + 1) s left op ctx depth
termination_by structural fuel

def eval_logical_or (fuel : Nat) (expr : Bytes) (ctx : EvalContext) (depth : Nat) : R :=
  match fuel with
  | 0 => fuel_out
  | f + 1 =>
    eval_logical_or_loop f expr 0 0 Value.undef 0 ctx depth

termination_by structural fuel
/-- Fold step of the `&&` level. -/
def logical_and (fuel : Nat) (left : Value) (op : Nat) (expr0 : Bytes) (ctx : EvalContext) (depth : Nat) : R :=
  match fuel with
  | 0 => fuel_out
  | f + 1 =>
    match trim expr0 with
    | [] => (err_syn, [])
    | e =>
      let r := eval_auto f (STEP_LOGICAL_AND + 1) e ctx depth
      if is_err r.1 then r
      else if op = 38 then (vand left r.1, r.2)
      else r

termination_by structural fuel
/-- Scan loop of `eval_logical_and`: splits on `&&`; a single `&`
(bitwise) skips two bytes; a trailing `&` is a syntax error. -/
def eval_logical_and_loop (fuel : Nat) (expr : Bytes) (i : Nat) (s : Nat) (left : Value) (op : Nat) (ctx : EvalContext) (depth : Nat) : R :=
  match fuel with
  | 0 => fuel_out
  | f + 1 =>
    match expr.get? i with
    | none => logical_and f left op (slice expr s (expr.length - s)) ctx depth
    | some c =>
      if c = 38 then
        (match expr.get? (i + 1) with
         | none => (err_syn, [])
         | some c2 =>
           if c2 ≠ 38 then eval_logical_and_loop f expr (i + 2) s left op ctx depth
           else
             let r := logical_and f left op (slice expr s (i - s)) ctx depth
             if is_err r.1 then r
             else
               let rest := eval_logical_and_loop f expr (i + 2) (i + 2) r.1 c ctx depth
               (rest.1, r.2 ++ rest.2))
      else if is_open_ch c then
        match read_group (expr.drop i) with
        | none => (err_syn, [])
        | some glen => eval_logical_and_loop f expr (i + glen) s left op ctx depth
      else eval_logical_and_loop f expr (i + 1) s left op ctx depth
termination_by structural fuel

def eval_logical_and (fuel : Nat) (expr : Bytes) (ctx : EvalContext) (depth : Nat) : R :=
  match fuel with
  | 0 => fuel_out
  | f + 1 =>
    eval_logical_and_loop f expr 0 0 Value.undef 0 ctx depth

termination_by structural fuel
/-- Fold step of the `|` level. -/
def bitwise_or (fuel : Nat) (left : Value) (op : Nat) (expr0 : Bytes) (ctx : EvalContext) (depth : Nat) : R :=
  match fuel with
  | 0 => fuel_out
  | f + 1 =>
    match trim expr0 with
    | [] => (err_syn, [])
    | e =>
      let r := eval_auto f (STEP_BITWISE_OR + 1) e ctx depth
      if is_err r.1 then r
      else if op = 124 then (vbor left r.1, r.2)
      else r

termination_by structural fuel
/-- Scan loop of `eval_bitwise_or`: splits on every `|` (the `||` pairs
were consumed at the higher level). -/
def eval_bitwise_or_loop (fuel : Nat) (expr : Bytes) (i : Nat) (s : Nat) (left : Value) (op : Nat) (ctx : EvalContext) (depth : Nat) : R :=
  match fuel with
  | 0 => fuel_out
  | f + 1 =>
    match expr.get? i with
    | none => bitwise_or f left op (slice expr s (expr.length - s)) ctx depth
    | some c =>
      if c = 124 then
        let r := bitwise_or f left op (slice expr s (i - s)) ctx depth
        if is_err r.1 then r
        else
          let rest := eval_bitwise_or_loop f expr (i + 1) (i + 1) r.1 c ctx depth
          (rest.1, r.2 ++ rest.2)
      else if is_open_ch c then
        match read_group (expr.drop i) with
        | none => (err_syn, [])
        | some glen => eval_bitwise_or_loop f expr (i + glen) s left op ctx depth
      else eval_bitwise_or_loop f expr (i + 1) s left op ctx depth
termination_by structural fuel

def eval_bitwise_or (fuel : Nat) (expr : Bytes) (ctx : EvalContext) (depth : Nat) : R :=
  match fuel with
  | 0 => fuel_out
  | f + 1 =>
    eval_bitwise_or_loop f expr 0 0 Value.undef 0 ctx depth

termination_by structural fuel
/-- Fold step of the `^` level. -/
def bitwise_xor (fuel : Nat) (left : Value) (op : Nat) (expr0 : Bytes) (ctx : EvalContext) (depth : Nat) : R :=
  match fuel with
  | 0 => fuel_out
  | f + 1 =>
    match trim expr0 with
    | [] => (err_syn, [])
    | e =>
      let r := eval_auto f (STEP_BITWISE_XOR + 1) e ctx depth
      if is_err r.1 then r
      else if op = 94 then (vbxor left r.1, r.2)
      else r

termination_by structural fuel
/-- Scan loop of `eval_bitwise_xor`: splits on every `^`. -/
def eval_bitwise_xor_loop (fuel : Nat) (expr : Bytes) (i : Nat) (s : Nat) (left : Value) (op : Nat) (ctx : EvalContext) (depth : Nat) : R :=
  match fuel with
  | 0 => fuel_out
  | f + 1 =>
    match expr.get? i with
    | none => bitwise_xor f left op (slice expr s (expr.length - s)) ctx depth
    | some c =>
      if c = 94 then
        let r := bitwise_xor f left op (slice expr s (i - s)) ctx depth
        if is_err r.1 then r
        else
          let rest := eval_bitwise_xor_loop f expr (i + 1) (i + 1) r.1 c ctx depth
          (rest.1, r.2 ++ rest.2)
      else if is_open_ch c then
        match read_group (expr.drop i) with
        | none => (err_syn, [])
        | some glen => eval_bitwise_xor_loop f expr (i + glen) s left op ctx depth
      else eval_bitwise_xor_loop f expr (i + 1) s left op ctx depth
termination_by structural fuel

def eval_bitwise_xor (fuel : Nat) (expr : Bytes) (ctx : EvalContext) (depth : Nat) : R :=
  match fuel with
  | 0 => fuel_out
  | f + 1 =>
    eval_bitwise_xor_loop f expr 0 0 Value.undef 0 ctx depth

termination_by structural fuel
/-- Fold step of the `&` level. -/
def bitwise_and (fuel : Nat) (left : Value) (op : Nat) (expr0 : Bytes) (ctx : EvalContext) (depth : Nat) : R :=
  match fuel with
  | 0 => fuel_out
  | f + 1 =>
    match trim expr0 with
    | [] => (err_syn, [])
    | e =>
      let r := eval_auto f (STEP_BITWISE_AND + 1) e ctx depth
      if is_err r.1 then r
      else if op = 38 then (vband left r.1, r.2)
      else r

termination_by structural fuel
/-- Scan loop of `eval_bitwise_and`: splits on every `&`. -/
def eval_bitwise_and_loop (fuel : Nat) (expr : Bytes) (i : Nat) (s : Nat) (left : Value) (op : Nat) (ctx : EvalContext) (depth : Nat) : R :=
  match fuel with
  | 0 => fuel_out
  | f + 1 =>
    match expr.get? i with
    | none => bitwise_and f left op (slice expr s (expr.length - s)) ctx depth
    | some c =>
      if c = 38 then
        let r := bitwise_and f left op (slice expr s (i - s)) ctx depth
        if is_err r.1 then r
        else
          let rest := eval_bitwise_and_loop f expr (i + 1) (i + 1) r.1 c ctx depth
          (rest.1, r.2 ++ rest.2)
      else if is_open_ch c then
        match read_group (expr.drop i) with
        | none => (err_syn, [])
        | some glen => eval_bitwise_and_loop f expr (i + glen) s left op ctx depth
      else eval_bitwise_and_loop f expr (i + 1) s left op ctx depth
termination_by structural fuel

def eval_bitwise_and (fuel : Nat) (expr : Bytes) (ctx : EvalContext) (depth : Nat) : R :=
  match fuel with
  | 0 => fuel_out
  | f + 1 =>
    eval_bitwise_and_loop f expr 0 0 Value.undef 0 ctx depth

termination_by structural fuel
/-- Fold step of the equality level: strip leading `!` from the right
operand (coercing it to bool when any were present), evaluate, then
apply the pending comparator (`=` 61, `!` 33, strict forms +32). -/
def equal (fuel : Nat) (left : Value) (op : Nat) (expr0 : Bytes) (ctx : EvalContext) (depth : Nat) : R :=
  match fuel with
  | 0 => fuel_out
  | f + 1 =>
    match equal_strip (expr0.length + 1) (trim expr0) false false with
    | none => (err_syn, [])
    | some (e, neg, boolit) =>
      let r := eval_auto f (STEP_EQUALITY + 1) e ctx depth
      if is_err r.1 then r
      else
        let rb := if boolit then
            (let rb0 := if r.1.kind ≠ Kind.bool then make_bool (to_bool r.1) else r.1
             if neg then make_bool (!rb0.t) else rb0)
          else r.1
        if op = 61 then (veq left rb ctx, r.2)
        else if op = 33 then (vneq left rb ctx, r.2)
        else if op = 93 then (vseq left rb ctx, r.2)
        else if op = 65 then (vsneq left rb ctx, r.2)
        else (rb, r.2)

termination_by structural fuel
/-- Scan loop of `eval_equality`: recognizes `==`, `!=`, `===`, `!==`;
a `=` after `<` or `>` belongs to the comparison level; a lone `=` is a
syntax error; a lone `!` is left for the fold step. -/
def eval_equality_loop (fuel : Nat) (expr : Bytes) (i : Nat) (s : Nat) (left : Value) (op : Nat) (ctx : EvalContext) (depth : Nat) : R :=
  match fuel with
  | 0 => fuel_out
  | f + 1 =>
    match expr.get? i with
    | none => equal f left op (slice expr s (expr.length - s)) ctx depth
    | some c =>
      if c = 61 then
        (if 0 < i ∧ (expr.get? (i - 1) = some 62 ∨ expr.get? (i - 1) = some 60) then
          eval_equality_loop f expr (i + 1) s left op ctx depth
        else
          match expr.get? (i + 1) with
          | some 61 =>
            let strict := expr.get? (i + 2) = some 61
            let opch := if strict then 93 else 61
            let opsz := if strict then 3 else 2
            let r := equal f left op (slice expr s (i - s)) ctx depth
            if is_err r.1 then r
            else
              let rest := eval_equality_loop f expr (i + opsz) (i + opsz) r.1 opch ctx depth
              (rest.1, r.2 ++ rest.2)
          | _ => (err_syn, []))
      else if c = 33 then
        (match expr.get? (i + 1) with
         | some 61 =>
           let strict := expr.get? (i + 2) = some 61
           let opch := if strict then 65 else 33
           let opsz := if strict then 3 else 2
           let r := equal f left op (slice expr s (i - s)) ctx depth
           if is_err r.1 then r
           else
             let rest := eval_equality_loop f expr (i + opsz) (i + opsz) r.1 opch ctx depth
             (rest.1, r.2 ++ rest.2)
         | _ => eval_equality_loop f expr (i + 1) s left op ctx depth)
      else if is_open_ch c then
        match read_group (expr.drop i) with
        | none => (err_syn, [])
        | some glen => eval_equality_loop f expr (i + glen) s left op ctx depth
      else eval_equality_loop f expr (i + 1) s left op ctx depth
termination_by structural fuel

def eval_equality (fuel : Nat) (expr : Bytes) (ctx : EvalContext) (depth : Nat) : R :=
  match fuel with
  | 0 => fuel_out
  | f + 1 =>
    eval_equality_loop f expr 0 0 Value.undef 0 ctx depth

termination_by structural fuel
/-- Fold step of the comparison level (`<` 60, `>` 62, with `=` +32). -/
def comp (fuel : Nat) (left : Value) (op : Nat) (expr0 : Bytes) (ctx : EvalContext) (depth : Nat) : R :=
  match fuel with
  | 0 => fuel_out
  | f + 1 =>
    match trim expr0 with
    | [] => (err_syn, [])
    | e =>
      let r := eval_auto f (STEP_COMPS + 1) e ctx depth
      if is_err r.1 then r
      else if op = 60 then (vlt left r.1 ctx, r.2)
      else if op = 92 then (vlte left r.1 ctx, r.2)
      else if op = 62 then (vgt left r.1 ctx, r.2)
      else if op = 94 then (vgte left r.1 ctx, r.2)
      else r

termination_by structural fuel
/-- Scan loop of `eval_comps`: splits on `<`, `<=`, `>`, `>=`. -/
def eval_comps_loop (fuel : Nat) (expr : Bytes) (i : Nat) (s : Nat) (left : Value) (op : Nat) (ctx : EvalContext) (depth : Nat) : R :=
  match fuel with
  | 0 => fuel_out
  | f + 1 =>
    match expr.get? i with
    | none => comp f left op (slice expr s (expr.length - s)) ctx depth
    | some c =>
      if c = 60 ∨ c = 62 then
        let le := expr.get? (i + 1) = some 61
        let opch := if le then c + 32 else c
        let opsz := if le then 2 else 1
        let r := comp f left op (slice expr s (i - s)) ctx depth
        if is_err r.1 then r
        else
          let rest := eval_comps_loop f expr (i + opsz) (i + opsz) r.1 opch ctx depth
          (rest.1, r.2 ++ rest.2)
      else if is_open_ch c then
        match read_group (expr.drop i) with
        | none => (err_syn, [])
        | some glen => eval_comps_loop f expr (i + glen) s left op ctx depth
      else eval_comps_loop f expr (i + 1) s left op ctx depth
termination_by structural fuel

def eval_comps (fuel : Nat) (expr : Bytes) (ctx : EvalContext) (depth : Nat) : R :=
  match fuel with
  | 0 => fuel_out
  | f + 1 =>
    eval_comps_loop f expr 0 0 Value.undef 0 ctx depth

termination_by structural fuel
/-- Fold step of the sum level: an operand carrying a folded leading
sign is negated by multiplying with `-1.0`. -/
def sum (fuel : Nat) (left : Value) (op : Nat) (expr0 : Bytes) (neg : Bool) (ctx : EvalContext) (depth : Nat) : R :=
  match fuel with
  | 0 => fuel_out
  | f + 1 =>
    match trim expr0 with
    | [] => (err_syn, [])
    | e =>
      let r := eval_auto f (STEP_SUMS + 1) e ctx depth
      if is_err r.1 then r
      else
        let right := if neg then vmul r.1 (make_float (.fin (-1))) else r.1
        if is_err right then (right, r.2)
        else if op = 43 then (vadd left right, r.2)
        else if op = 45 then (vsub left right, r.2)
        else (right, r.2)

termination_by structural fuel
/-- Scan loop of `eval_sums`: consumes runs of leading signs into a
single `neg` flag (`--` rejected), treats a sign after `e`/`E` as part
of scientific notation, and re-attaches a folded `-` to a bare numeric
operand before splitting. -/
def eval_sums_loop (fuel : Nat) (expr : Bytes) (i : Nat) (s : Nat) (left : Value) (op : Nat) (fill : Bool) (neg : Bool) (ctx : EvalContext) (depth : Nat) : R :=
  match fuel with
  | 0 => fuel_out
  | f + 1 =>
    match expr.get? i with
    | none =>
      let reatt := neg && decide (0 < s) && decide (s < expr.length) &&
        decide (expr.get? (s - 1) = some 45) &&
        (match expr.get? s with | some d => isDigitB d | none => false)
      let s2 := if reatt then s - 1 else s
      let neg2 := if reatt then false else neg
      sum f left op (slice expr s2 (expr.length - s2)) neg2 ctx depth
    | some c =>
      if c = 45 ∨ c = 43 then
        (if fill = false then
          (if 0 < i ∧ expr.get? (i - 1) = some c then (err_syn, [])
           else eval_sums_loop f expr (i + 1) (i + 1) left op false
                  (if c = 45 then !neg else neg) ctx depth)
        else if 0 < i ∧ (expr.get? (i - 1) = some 101 ∨ expr.get? (i - 1) = some 69) then
          eval_sums_loop f expr (i + 1) s left op fill neg ctx depth
        else
          let reatt := neg && decide (0 < s) && decide (s < expr.length) &&
            decide (expr.get? (s - 1) = some 45) &&
            (match expr.get? s with | some d => isDigitB d | none => false)
          let s2 := if reatt then s - 1 else s
          let neg2 := if reatt then false else neg
          let r := sum f left op (slice expr s2 (i - s2)) neg2 ctx depth
          if is_err r.1 then r
          else
            let rest := eval_sums_loop f expr (i + 1) (i + 1) r.1 c false false ctx depth
            (rest.1, r.2 ++ rest.2))
      else if is_open_ch c then
        match read_group (expr.drop i) with
        | none => (err_syn, [])
        | some glen => eval_sums_loop f expr (i + glen) s left op true neg ctx depth
      else if fill = false ∧ isws c = false then
        eval_sums_loop f expr (i + 1) s left op true neg ctx depth
      else eval_sums_loop f expr (i + 1) s left op fill neg ctx depth
termination_by structural fuel

def eval_sums (fuel : Nat) (expr : Bytes) (ctx : EvalContext) (depth : Nat) : R :=
  match fuel with
  | 0 => fuel_out
  | f + 1 =>
    eval_sums_loop f expr 0 0 Value.undef 0 false false ctx depth

termination_by structural fuel
/-- Fold step of the factor level; the right operand is an atom. -/
def fact (fuel : Nat) (left : Value) (op : Nat) (expr0 : Bytes) (ctx : EvalContext) (depth : Nat) : R :=
  match fuel with
  | 0 => fuel_out
  | f + 1 =>
    match trim expr0 with
    | [] => (err_syn, [])
    | e =>
      let r := eval_atom f e ctx depth
      if is_err r.1 then r
      else if op = 42 then (vmul left r.1, r.2)
      else if op = 47 then (vdiv left r.1, r.2)
      else if op = 37 then (vmod left r.1, r.2)
      else r

termination_by structural fuel
/-- Scan loop of `eval_facts`: splits on `*`, `/`, `%`. -/
def eval_facts_loop (fuel : Nat) (expr : Bytes) (i : Nat) (s : Nat) (left : Value) (op : Nat) (ctx : EvalContext) (depth : Nat) : R :=
  match fuel with
  | 0 => fuel_out
  | f + 1 =>
    match expr.get? i with
    | none => fact f left op (slice expr s (expr.length - s)) ctx depth
    | some c =>
      if c = 42 ∨ c = 47 ∨ c = 37 then
        let r := fact f left op (slice expr s (i - s)) ctx depth
        if is_err r.1 then r
        else
          let rest := eval_facts_loop f expr (i + 1) (i + 1) r.1 c ctx depth
          (rest.1, r.2 ++ rest.2)
      else if is_open_ch c then
        match read_group (expr.drop i) with
        | none => (err_syn, [])
        | some glen => eval_facts_loop f expr (i + glen) s left op ctx depth
      else eval_facts_loop f expr (i + 1) s left op ctx depth
termination_by structural fuel

def eval_facts (fuel : Nat) (expr : Bytes) (ctx : EvalContext) (depth : Nat) : R :=
  match fuel with
  | 0 => fuel_out
  | f + 1 =>
    eval_facts_loop f expr 0 0 Value.undef 0 ctx depth

termination_by structural fuel
/-- The atom: numeric, string and group literals, reserved words,
identifier resolution through the host, then the postfix chain. -/
def eval_atom (fuel : Nat) (expr0 : Bytes) (ctx : EvalContext) (depth : Nat) : R :=
  match trim expr0 with
  | [] => (err_syn, [])
  | expr@(c :: _) =>
    match fuel with
    | 0 => fuel_out
    | f + 1 =>
      if c = 48 ∧ (expr.get? 1 = some 120 ∨ expr.get? 1 = some 88) then
        (match parse_uint (expr.drop 2) 16 with
         | some x => (make_float (conv_utof x), [])
         | none => (err_syn, []))
      else if isDigitB c ∨ c = 45 ∨ c = 46 then
        (if 3 < expr.length ∧ has_suffix expr (bytesR (r"64")) then
          (if expr.get? (expr.length - 3) = some 117 then
            (match parse_uint (expr.take (expr.length - 3)) 10 with
             | some x => (make_uint x, [])
             | none => (err_syn, []))
          else if expr.get? (expr.length - 3) = some 105 then
            (match parse_int (expr.take (expr.length - 3)) 10 with
             | some x => (make_int x, [])
             | none => (err_syn, []))
          else
            (match parse_float expr with
             | some x => (make_float x, [])
             | none => (err_syn, [])))
        else
          (match parse_float expr with
           | some x => (make_float x, [])
           | none => (err_syn, [])))
      else if c = 34 ∨ c = 39 then
        (match parse_string expr with
         | none => (err_syn, [])
         | some (content, rlen) =>
           eval_chain f (expr.drop rlen) (make_string content) [] false
             Value.undef ctx depth)
      else if c = 40 ∨ c = 123 ∨ c = 91 then
        (match read_group expr with
         | none => (err_syn, [])
         | some glen =>
           if c = 40 then
             -- note the C passes `len-2`, not `glen-2`, for paren groups
             let r := eval_expr f (slice expr 1 (expr.length - 2)) ctx depth
             if is_err r.1 then r
             else
               let rest := eval_chain f (expr.drop glen) r.1 [] false
                             Value.undef ctx depth
               (rest.1, r.2 ++ rest.2)
           else if c = 91 then
             let r := multi_exprs_to_array f (slice expr 1 (glen - 2)) ctx depth
             if is_err r.1 then r
             else
               let rest := eval_chain f (expr.drop glen) r.1 [] false
                             Value.undef ctx depth
               (rest.1, r.2 ++ rest.2)
           else (err_syn, []))
      else
        match read_ident expr with
        | none => (err_syn, [])
        | some ident =>
          if ident = bytesR (r"true") then
            eval_chain f (expr.drop ident.length) (make_bool true) ident false
              Value.undef ctx depth
          else if ident = bytesR (r"false") then
            eval_chain f (expr.drop ident.length) (make_bool false) ident false
              Value.undef ctx depth
          else if ident = bytesR (r"null") then
            eval_chain f (expr.drop ident.length) make_null ident false
              Value.undef ctx depth
          else if ident = bytesR (r"undefined") then
            eval_chain f (expr.drop ident.length) make_undefined ident false
              Value.undef ctx depth
          else if ident = bytesR (r"NaN") then
            eval_chain f (expr.drop ident.length) (make_float .nan) ident false
              Value.undef ctx depth
          else if ident = bytesR (r"Infinity") then
            eval_chain f (expr.drop ident.length) (make_float .pinf) ident false
              Value.undef ctx depth
          else if ident = bytesR (r"in") ∨ ident = bytesR (r"new")
              ∨ ident = bytesR (r"void") ∨ ident = bytesR (r"await")
              ∨ ident = bytesR (r"yield") ∨ ident = bytesR (r"typeof")
              ∨ ident = bytesR (r"function") ∨ ident = bytesR (r"instanceof") then
            (err_unsupported_keyword ident, [])
          else
            let left := get_ref_value false make_undefined ident false ctx
            if is_err left then (left, [])
            else eval_chain f (expr.drop ident.length) left ident false
                   Value.undef ctx depth

termination_by structural fuel
/-- One member-access step of the chain (the bytes after the `.`):
trim, read the identifier, resolve through the host, continue. -/
def eval_chain_member (fuel : Nat) (bytes : Bytes) (left : Value) (oc : Bool) (_left_left : Value) (ctx : EvalContext) (depth : Nat) : R :=
  match fuel with
  | 0 => fuel_out
  | f + 1 =>
    let e := trim bytes
    match read_ident e with
    | none => (err_syn, [])
    | some ident =>
      let val := get_ref_value true left ident oc ctx
      if is_err val then (val, [])
      else eval_chain f (e.drop ident.length) val ident oc left ctx depth

termination_by structural fuel
/-- The postfix-chain loop of the atom: `.ident`, `?.ident` (which sets
the optional-chaining flag, never cleared thereafter), computed access
`[expr]`, and calls `(args)`. -/
def eval_chain (fuel : Nat) (expr0 : Bytes) (left : Value) (left_ident : Bytes) (opt_chain : Bool) (left_left : Value) (ctx : EvalContext) (depth : Nat) : R :=
  match fuel with
  | 0 => fuel_out
  | f + 1 =>
    let expr := trim expr0
    match expr with
    | [] => (left, [])
    | c :: rest =>
      if c = 63 then
        (match rest with
         | 46 :: rest2 =>
           eval_chain_member f rest2 left true left_left ctx depth
         | _ => (err_syn, []))
      else if c = 46 then
        eval_chain_member f rest left opt_chain left_left ctx depth
      else if c = 40 then
        (match read_group expr with
         | none => (err_syn, [])
         | some glen =>
           match left with
           | .func fid =>
             let args := multi_exprs_to_array f (slice expr 1 (glen - 2)) ctx depth
             if is_err args.1 then args
             else
               let val := ctx_funcs ctx fid left_left args.1
               if is_err val then (val, [])
               else eval_chain f (expr.drop glen) val left_ident opt_chain left ctx depth
           | _ => (err_notfunc left_ident, []))
      else if c = 91 then
        (match read_group expr with
         | none => (err_syn, [])
         | some glen =>
           let last := eval_expr f (slice expr 1 (glen - 2)) ctx depth
           if is_err last.1 then last
           else
             let ident := to_str last.1
             let val := get_ref_value true left ident opt_chain ctx
             if is_err val then (val, last.2)
             else
               let rest2 := eval_chain f (expr.drop glen) val left_ident opt_chain left ctx depth
               (rest2.1, last.2 ++ rest2.2))
      else (err_syn, [])

termination_by structural fuel
/-- The `multi_exprs_to_array` helper: run the comma iterator over the
range and collect the emitted values into an array value. -/
def multi_exprs_to_array (fuel : Nat) (expr : Bytes) (ctx : EvalContext) (depth : Nat) : R :=
  match fuel with
  | 0 => fuel_out
  | f + 1 =>
    let r := eval_foreach f expr ctx.env true depth
    if is_err r.1 then (r.1, [])
    else (make_array r.2, [])

termination_by structural fuel
/-- The `eval_foreach` entry: trim (empty gives undefined), pre-scan the
step bitmask, build the context and evaluate. -/
def eval_foreach (fuel : Nat) (expr0 : Bytes) (env : Option Env) (iter : Bool) (depth : Nat) : R :=
  match trim expr0 with
  | [] => (Value.undef, [])
  | expr =>
    match fuel with
    | 0 => fuel_out
    | f + 1 =>
      let steps0 := expr.foldl (fun acc c => mask_or_list acc (op_steps c)) []
      let steps := if iter then mask_or_one steps0 STEP_COMMA else steps0
      eval_expr f expr { steps := steps, iter := iter, env := env } depth

termination_by structural fuel
/-- The `eval_expr` helper: the only place the depth counter grows. -/
def eval_expr (fuel : Nat) (expr : Bytes) (ctx : EvalContext) (depth : Nat) : R :=
  match fuel with
  | 0 => fuel_out
  | f + 1 => eval_auto f STEP_COMMA expr ctx (depth + 1)

termination_by structural fuel
/-- The `eval_auto` dispatcher: the depth guard, then the first enabled
level at or below the requested step, defaulting to the atom. -/
def eval_auto (fuel : Nat) (step : Nat) (expr : Bytes) (ctx : EvalContext) (depth : Nat) : R :=
  if XV_MAXDEPTH < depth - 1 then (err_msg maxdepth_msg, [])
  else
  match fuel with
  | 0 => fuel_out
  | f + 1 =>
    if step ≤ STEP_COMMA ∧ hasStep ctx.steps STEP_COMMA then
      eval_comma f expr ctx depth
    else if step ≤ STEP_TERNS ∧ hasStep ctx.steps STEP_TERNS then
      eval_terns f expr ctx depth
    else if step ≤ STEP_LOGICAL_OR ∧ hasStep ctx.steps STEP_LOGICAL_OR then
      eval_logical_or f expr ctx depth
    else if step ≤ STEP_LOGICAL_AND ∧ hasStep ctx.steps STEP_LOGICAL_AND then
      eval_logical_and f expr ctx depth
    else if step ≤ STEP_BITWISE_OR ∧ hasStep ctx.steps STEP_BITWISE_OR then
      eval_bitwise_or f expr ctx depth
    else if step ≤ STEP_BITWISE_XOR ∧ hasStep ctx.steps STEP_BITWISE_XOR then
      eval_bitwise_xor f expr ctx depth
    else if step ≤ STEP_BITWISE_AND ∧ hasStep ctx.steps STEP_BITWISE_AND then
      eval_bitwise_and f expr ctx depth
    else if step ≤ STEP_EQUALITY ∧ hasStep ctx.steps STEP_EQUALITY then
      eval_equality f expr ctx depth
    else if step ≤ STEP_COMPS ∧ hasStep ctx.steps STEP_COMPS then
      eval_comps f expr ctx depth
    else if step ≤ STEP_SUMS ∧ hasStep ctx.steps STEP_SUMS then
      eval_sums f expr ctx depth
    else if step ≤ STEP_FACTS ∧ hasStep ctx.steps STEP_FACTS then
      eval_facts f expr ctx depth
    else eval_atom f expr ctx depth
termination_by structural fuel

end

/-- Fuel supplied at the entry points; the depth guard caps the C call
stack far below this. -/
def XV_FUEL : Nat := 1000000

/-- The top-level entry point (`eval` / `xv_evaln` with no iterator,
depth 0): the resulting value of an expression under an environment. -/
def xv_eval (expr : Bytes) (env : Option Env) : Value :=
  (eval_foreach XV_FUEL expr env false 0).1

/-! ## Concrete environments and inputs used by the theorems -/

/-- A context with no environment (as used by pure operator calls). -/
def ctx0 : EvalContext := { steps := [], iter := false, env := none }

/-- A context carrying a given environment. -/
def ctxOf (e : Env) : EvalContext := { steps := [], iter := false, env := some e }

/-- Host resolving `a` and `b` to fixed values, everything else to
undefined. -/
def envAB (va vb : Value) : Env :=
  { ref := some (fun _ ident =>
      if ident = bytesR (r"a") then va
      else if ident = bytesR (r"b") then vb
      else Value.undef) }

/-- Host resolving every identifier to undefined. -/
def envU : Env := { ref := some (fun _ _ => Value.undef) }

/-- A custom host error value. -/
def errBoom : Value := err_msg (bytesR (r"boom"))

/-- Host returning the custom error for every lookup. -/
def envErrHost : Env := { ref := some (fun _ _ => errBoom) }

/-- Host resolving `a` to true and every other lookup to the custom
error. -/
def envErrAB : Env :=
  { ref := some (fun _ ident =>
      if ident = bytesR (r"a") then Value.bool true else errBoom) }

/-- The expression of `n` nested parentheses around the literal 1. -/
def parens (n : Nat) : Bytes :=
  List.replicate n 40 ++ 49 :: List.replicate n 41

/-- The float-to-int64 conversion as the specification words it: NaN to
0; a value within the safe-integer envelope `±(2^53 - 1)` truncates
toward zero; a value outside is first floor-ed (positive) or ceil-ed
(negative), then compared against the approximate `±2^63` boundary and
clamped to the kind's extreme.  Infinities take the outside path. -/
def conv_ftoi_spec (f : F64) : Int :=
  match f with
  | .nan => 0
  | .pinf => I64_MAX
  | .ninf => I64_MIN
  | .fin q =>
    if |q| ≤ 9007199254740991 then F64.rtrunc q
    else if q < 0 then
      (if (⌈q⌉ : ℚ) < INT64_MIN_FLOAT then I64_MIN else ⌈q⌉)
    else
      (if INT64_MAX_FLOAT < (⌊q⌋ : ℚ) then I64_MAX else ⌊q⌋)

/-- The float-to-uint64 conversion as the specification words it: NaN to
0; within the envelope truncation toward zero clamped to the kind's
lower extreme 0; outside, floor (positive) with the approximate `2^64`
boundary clamp to `UINT64_MAX`, or ceil (negative) clamped to 0. -/
def conv_ftou_spec (f : F64) : Nat :=
  match f with
  | .nan => 0
  | .ninf => 0
  | .pinf => U64_MAX
  | .fin q =>
    if |q| ≤ 9007199254740991 then (F64.rtrunc q).toNat
    else if q < 0 then (⌈q⌉).toNat
    else
      (if UINT64_MAX_FLOAT < (⌊q⌋ : ℚ) then U64_MAX else (⌊q⌋).toNat)

/-! ## C5: integer division/modulo by zero and mixed-kind arithmetic -/

/-- C5: for same-integer-kind operands (`Int`/`Int` or `Uint`/`Uint`)
with a zero divisor, `vdiv` and `vmod` return the Float-kind NaN value
(no trap, no error); with one `Int` and one `Uint` operand the
operation falls through to the float path — both operands converted by
`to_f64`, the result of Float kind. -/
theorem C5_div_mod_zero_and_mixed :
    (∀ a : Int, vdiv (Value.int a) (Value.int 0) = make_float F64.nan
      ∧ vmod (Value.int a) (Value.int 0) = make_float F64.nan)
    ∧ (∀ u : Nat, vdiv (Value.uint u) (Value.uint 0) = make_float F64.nan
      ∧ vmod (Value.uint u) (Value.uint 0) = make_float F64.nan)
    ∧ (∀ (a : Int) (u : Nat),
        vdiv (Value.int a) (Value.uint u)
          = make_float (F64.fdiv (to_f64 (Value.int a)) (to_f64 (Value.uint u)))
        ∧ vdiv (Value.uint u) (Value.int a)
          = make_float (F64.fdiv (to_f64 (Value.uint u)) (to_f64 (Value.int a)))
        ∧ vmod (Value.int a) (Value.uint u)
          = make_float (F64.fmod (to_f64 (Value.int a)) (to_f64 (Value.uint u)))
        ∧ vmod (Value.uint u) (Value.int a)
          = make_float (F64.fmod (to_f64 (Value.uint u)) (to_f64 (Value.int a)))
        ∧ (vdiv (Value.int a) (Value.uint u)).kind = Kind.float
        ∧ (vmod (Value.int a) (Value.uint u)).kind = Kind.float) :=
  ⟨fun _ => ⟨rfl, rfl⟩, fun _ => ⟨rfl, rfl⟩,
   fun _ _ => ⟨rfl, rfl, rfl, rfl, rfl, rfl⟩⟩

/-! ## C6: float-to-integer conversion -/

/-- C6: on Float-kind values, `to_i64` and `to_u64` compute exactly the
specification's description `conv_ftoi_spec` / `conv_ftou_spec`: NaN to
0, truncation toward zero inside the `±(2^53 - 1)` safe-integer
envelope, and outside it floor/ceil followed by the clamp against the
approximate boundary constants to the kind's extremes. -/
theorem C6_float_to_integer_conversions :
    ∀ f : F64, to_i64 (make_float f) = conv_ftoi_spec f
      ∧ to_u64 (make_float f) = conv_ftou_spec f := by
  intro f
  cases f with
  | nan => exact ⟨rfl, rfl⟩
  | pinf => exact ⟨rfl, rfl⟩
  | ninf => exact ⟨rfl, rfl⟩
  | fin q =>
    have hceil : q < 0 → (⌈q⌉).toNat = 0 := fun h0 =>
      Int.toNat_of_nonpos (Int.ceil_le.mpr (by push_cast; exact h0.le))
    constructor
    · show conv_ftoi (.fin q) = conv_ftoi_spec (.fin q)
      simp only [conv_ftoi, conv_ftoi_spec]
      rcases le_or_lt |q| 9007199254740991 with h | h
      · have h1 := abs_le.mp h
        rw [if_pos h, if_neg (by push_neg; exact ⟨h1.1, h1.2⟩)]
      · rw [if_neg (not_le.mpr h), if_pos ?_]
        rcases lt_abs.mp h with h2 | h2
        · exact Or.inr h2
        · exact Or.inl (by linarith)
    · show conv_ftou (.fin q) = conv_ftou_spec (.fin q)
      simp only [conv_ftou, conv_ftou_spec]
      rcases lt_or_le q 0 with h0 | h0
      · rw [if_pos h0]
        rcases le_or_lt |q| 9007199254740991 with h | h
        · rw [if_pos h]
          show 0 = (F64.rtrunc q).toNat
          rw [F64.rtrunc, if_pos h0, hceil h0]
        · rw [if_neg (not_le.mpr h), if_pos h0, hceil h0]
      · rw [if_neg (not_lt.mpr h0)]
        rcases le_or_lt q 9007199254740991 with h | h
        · rw [if_neg (not_lt.mpr h), if_pos (by rw [abs_of_nonneg h0]; exact h)]
        · rw [if_pos h]
          conv_rhs => rw [if_neg (show ¬(|q| ≤ 9007199254740991) from by
              rw [abs_of_nonneg h0]; exact not_le.mpr h),
            if_neg (not_lt.mpr h0)]

/-! ## C7: the equality-operator algebra -/

/-- C7: for every pair of values and context, `!=` is the boolean
negation of `==`, `!==` is the boolean negation of `===`, and a true
`===` implies a true `==`. -/
theorem C7_equality_algebra :
    ∀ (a b : Value) (ctx : EvalContext),
      (vneq a b ctx).t = !(veq a b ctx).t
      ∧ (vsneq a b ctx).t = !(vseq a b ctx).t
      ∧ ((vseq a b ctx).t = true → (veq a b ctx).t = true) := by
  intro a b ctx
  refine ⟨rfl, rfl, ?_⟩
  unfold vseq
  by_cases h : a.kind = b.kind
  · simp [h]
  · simp [h, make_bool, Value.t]

/-- Witness for C7 at concrete strict-equal strings. -/
theorem C7_witness :
    (vseq (Value.str []) (Value.str []) ctx0).t = true
    ∧ (veq (Value.str []) (Value.str []) ctx0).t = true :=
  ⟨rfl, (C7_equality_algebra (Value.str []) (Value.str []) ctx0).2.2 rfl⟩

/-! ## C10: `<=` and `>=` on floats and NaN -/

/-- C10: on two Float-kind values, `a <= b` is computed as
`(a < b) || !(b < a)` and `a >= b` as `(b < a) || !(a < b)`; hence when
either operand is NaN both return true, while `NaN < 0` is false. -/
theorem C10_lte_gte_nan :
    ∀ (x y : F64) (ctx : EvalContext),
      vlte (Value.float x) (Value.float y) ctx
        = make_bool (F64.lt x y || !F64.lt y x)
      ∧ vgte (Value.float x) (Value.float y) ctx
        = make_bool (F64.lt y x || !F64.lt x y)
      ∧ (x = F64.nan ∨ y = F64.nan →
          vlte (Value.float x) (Value.float y) ctx = make_bool true
          ∧ vgte (Value.float x) (Value.float y) ctx = make_bool true)
      ∧ vlt (Value.float F64.nan) (Value.float (F64.fin 0)) ctx
          = make_bool false := by
  intro x y ctx
  have hlte : vlte (Value.float x) (Value.float y) ctx
      = make_bool (F64.lt x y || !F64.lt y x) := by
    simp only [vlte, vlt]
    cases hxy : F64.lt x y <;> simp [make_bool, Value.t, hxy]
  have hgte : vgte (Value.float x) (Value.float y) ctx
      = make_bool (F64.lt y x || !F64.lt x y) := by
    simp only [vgte, vgt, vlt]
    cases hyx : F64.lt y x <;> simp [make_bool, Value.t, hyx]
  refine ⟨hlte, hgte, ?_, rfl⟩
  intro h
  have hx : F64.lt x y = false ∧ F64.lt y x = false := by
    rcases h with h | h
    · subst h; cases y <;> simp [F64.lt]
    · subst h; cases x <;> simp [F64.lt]
  rw [hlte, hgte, hx.1, hx.2]
  exact ⟨rfl, rfl⟩

/-- Witness for C10 at `x = NaN`, `y = 0.0`. -/
theorem C10_witness :
    vlte (Value.float F64.nan) (Value.float (F64.fin 0)) ctx0 = make_bool true
    ∧ vgte (Value.float F64.nan) (Value.float (F64.fin 0)) ctx0 = make_bool true :=
  (C10_lte_gte_nan F64.nan (F64.fin 0) ctx0).2.2.1 (Or.inl rfl)

/-! ## C1: optional chaining versus a host-returned error -/

/-- Helper: fuel-generic evaluation of `a?.b` under the host that
resolves `a` to true and errors on everything else. -/
theorem eval_opt_err_fuel :
    ∀ k : Nat,
      (eval_foreach (k + 64) (bytesR (r"a?.b")) (some envErrAB) false 0).1
        = errBoom :=
  fun _ => rfl

/-- C1 counterexample: with host `a ↦ true` and every chained lookup
returning a custom error, the optional-chain access `a?.b` evaluates to
the host error — it is not converted to undefined. -/
theorem C1_counterexample :
    xv_eval (bytesR (r"a?.b")) (some envErrAB) = errBoom
    ∧ xv_eval (bytesR (r"a?.b")) (some envErrAB) ≠ Value.undef := by
  have h : xv_eval (bytesR (r"a?.b")) (some envErrAB) = errBoom := by
    show (eval_foreach XV_FUEL _ _ _ _).1 = _
    rw [show XV_FUEL = 999936 + 64 from rfl]
    exact eval_opt_err_fuel 999936
  refine ⟨h, ?_⟩
  rw [h]
  intro hc
  simp [errBoom, err_msg] at hc

/-- C1 (amended): optional chaining does not convert a host-returned
error into undefined — `get_ref_value` returns a host error before the
opt-chain conversion is reached; the only error `?.` converts to
undefined is the chained undefined-identifier error synthesized when an
undefined lookup result meets an undefined receiver. -/
theorem C1_opt_chain_error_behaviour :
    ∀ (left : Value) (ident : Bytes) (e : Env) (rf : Value → Bytes → Value),
      e.ref = some rf → left.kind ≠ Kind.json →
      (is_err (rf left ident) = true →
        get_ref_value true left ident true (ctxOf e) = rf left ident)
      ∧ (rf left ident = Value.undef → left = Value.undef →
        get_ref_value true left ident true (ctxOf e) = Value.undef) := by
  intro left ident e rf href hkind
  constructor
  · intro herr
    cases left <;> simp_all [get_ref_value, ctxOf, Value.kind]
  · intro hval hleft
    subst hleft
    simp [get_ref_value, ctxOf, href, hval, is_err, Value.kind, err_undefined,
      make_undefined]

/-- Witness for C1 at a concrete Bool receiver and erroring host. -/
theorem C1_witness :
    get_ref_value true (Value.bool true) (bytesR (r"b")) true (ctxOf envErrHost)
      = errBoom :=
  (C1_opt_chain_error_behaviour (Value.bool true) (bytesR (r"b")) envErrHost
    (fun _ _ => errBoom) rfl (by decide)).1 rfl

/-! ## C2: when a chained undefined becomes the chain error -/

/-- Helper: fuel-generic evaluation of `a.b` with `a ↦ true` and `b`
resolving to undefined. -/
theorem eval_ab_undef_fuel :
    ∀ k : Nat,
      (eval_foreach (k + 64) (bytesR (r"a.b"))
          (some (envAB (Value.bool true) Value.undef)) false 0).1
        = Value.undef :=
  fun _ => rfl

/-- C2 counterexample: a chained lookup returning undefined on a
Bool-kind receiver yields undefined — not the chained
undefined-identifier error the claim predicts for receivers of every
kind; the same is visible through the full evaluator on `a.b`. -/
theorem C2_counterexample :
    get_ref_value true (Value.bool true) (bytesR (r"p")) false (ctxOf envU)
      = Value.undef
    ∧ is_err (get_ref_value true (Value.bool true) (bytesR (r"p")) false
        (ctxOf envU)) = false
    ∧ xv_eval (bytesR (r"a.b")) (some (envAB (Value.bool true) Value.undef))
      = Value.undef := by
  refine ⟨rfl, rfl, ?_⟩
  show (eval_foreach XV_FUEL _ _ _ _).1 = _
  rw [show XV_FUEL = 999936 + 64 from rfl]
  exact eval_ab_undef_fuel 999936

/-- C2 (amended): a chained lookup whose host result is undefined
becomes the chained undefined-identifier error precisely when the
receiver is itself undefined; on any other non-JSON receiver kind the
access yields undefined, and through `?.` it yields undefined in either
case. -/
theorem C2_chained_undefined_needs_undefined_receiver :
    ∀ (left : Value) (ident : Bytes) (e : Env) (rf : Value → Bytes → Value),
      e.ref = some rf → left.kind ≠ Kind.json → rf left ident = Value.undef →
      get_ref_value true left ident false (ctxOf e)
        = (if left.kind = Kind.undef then err_undefined ident true
           else Value.undef)
      ∧ get_ref_value true left ident true (ctxOf e) = Value.undef := by
  intro left ident e rf href hkind hval
  constructor
  · cases left <;>
      simp_all [get_ref_value, ctxOf, Value.kind, is_err, err_undefined,
        make_undefined]
  · cases left <;>
      simp_all [get_ref_value, ctxOf, Value.kind, is_err, err_undefined,
        make_undefined]

/-- Witness for C2 at the undefined receiver. -/
theorem C2_witness :
    get_ref_value true Value.undef (bytesR (r"q")) false (ctxOf envU)
      = err_undefined (bytesR (r"q")) true := by
  have h := (C2_chained_undefined_needs_undefined_receiver Value.undef
    (bytesR (r"q")) envU (fun _ _ => Value.undef) rfl (by decide) rfl).1
  simpa using h

/-! ## C3: how far the optional-chaining flag reaches in a chain -/

/-- Helper: fuel-generic evaluation of `a?.b.c` and `a.b.c` with `a`
resolving to a host value and every other lookup undefined. -/
theorem eval_opt_latch_fuel :
    ∀ (k : Nat) (v : Value), is_err v = false → v ≠ Value.undef →
      v.kind ≠ Kind.json →
      (eval_foreach (k + 64) (bytesR (r"a?.b.c"))
          (some (envAB v Value.undef)) false 0).1 = Value.undef
      ∧ (eval_foreach (k + 64) (bytesR (r"a.b.c"))
          (some (envAB v Value.undef)) false 0).1
        = err_undefined (bytesR (r"c")) true := by
  intro k v h1 h2 h3
  cases v <;>
    first
      | exact absurd rfl h2
      | exact Bool.noConfusion h1
      | exact (h3 rfl).elim
      | exact ⟨rfl, rfl⟩

/-- C3 counterexample: with host `a ↦ true`, everything else undefined,
`a?.b.c` evaluates to undefined — the undefined arising at the later
plain `.c` step is also converted by the earlier `?.` — while `a.b.c`
propagates the chained undefined-identifier error for `c`. -/
theorem C3_counterexample :
    xv_eval (bytesR (r"a?.b.c")) (some (envAB (Value.bool true) Value.undef))
      = Value.undef
    ∧ xv_eval (bytesR (r"a.b.c")) (some (envAB (Value.bool true) Value.undef))
      = err_undefined (bytesR (r"c")) true := by
  have h := eval_opt_latch_fuel 999936 (Value.bool true) rfl (by simp) (by decide)
  constructor
  · show (eval_foreach XV_FUEL _ _ _ _).1 = _
    rw [show XV_FUEL = 999936 + 64 from rfl]
    exact h.1
  · show (eval_foreach XV_FUEL _ _ _ _).1 = _
    rw [show XV_FUEL = 999936 + 64 from rfl]
    exact h.2

/-- C3 (amended): an optional-chaining step sets the opt-chain flag for
the rest of the postfix chain (it is never cleared), so an undefined
arising at a later plain step is converted to undefined as well: for any
non-error, non-undefined, non-JSON host value of `a`, `a?.b.c` yields
undefined whereas `a.b.c` yields the chained undefined-identifier error
for `c`. -/
theorem C3_opt_chain_latches :
    ∀ v : Value, is_err v = false → v ≠ Value.undef → v.kind ≠ Kind.json →
      xv_eval (bytesR (r"a?.b.c")) (some (envAB v Value.undef)) = Value.undef
      ∧ xv_eval (bytesR (r"a.b.c")) (some (envAB v Value.undef))
        = err_undefined (bytesR (r"c")) true := by
  intro v h1 h2 h3
  have h := eval_opt_latch_fuel 999936 v h1 h2 h3
  constructor
  · show (eval_foreach XV_FUEL _ _ _ _).1 = _
    rw [show XV_FUEL = 999936 + 64 from rfl]
    exact h.1
  · show (eval_foreach XV_FUEL _ _ _ _).1 = _
    rw [show XV_FUEL = 999936 + 64 from rfl]
    exact h.2

/-- Witness for C3 at the host value `false`. -/
theorem C3_witness :
    xv_eval (bytesR (r"a?.b.c")) (some (envAB (Value.bool false) Value.undef))
      = Value.undef :=
  (C3_opt_chain_latches (Value.bool false) rfl (by simp) (by decide)).1

/-! ## C4: `||`, `&&`, `??` evaluate both sides; `||`/`&&` return Bool -/

set_option maxHeartbeats 40000000 in
set_option maxRecDepth 16384 in
/-- Helper: fuel-generic evaluation of the three logical operators on
host-supplied operand values. -/
theorem eval_logic_fuel :
    ∀ (k : Nat) (va vb : Value), va ≠ Value.undef → vb ≠ Value.undef →
      (eval_foreach (k + 64) (bytesR (r"a||b")) (some (envAB va vb)) false 0).1
        = (if is_err va then va else if is_err vb then vb
           else make_bool (to_bool va || to_bool vb))
      ∧ (eval_foreach (k + 64) (bytesR (r"a&&b")) (some (envAB va vb)) false 0).1
        = (if is_err va then va else if is_err vb then vb
           else make_bool (to_bool va && to_bool vb))
      ∧ (eval_foreach (k + 64) (bytesR (r"a??b")) (some (envAB va vb)) false 0).1
        = (if is_err va then va else if is_err vb then vb
           else vcoalesce va vb) := by
  intro k va vb h1 h2
  cases va <;> cases vb <;>
    first
      | exact absurd rfl h1
      | exact absurd rfl h2
      | exact ⟨rfl, rfl, rfl⟩

/-- C4: for `A || B`, `A && B` and `A ?? B` (operands supplied by the
host), both sides are evaluated — an error in either operand is the
result, even when the left operand alone would decide the outcome — and
when neither side errs, `||` and `&&` return a Bool-kind value holding
the disjunction/conjunction of the operands' truthiness (never an
operand itself), while `??` selects an operand. -/
theorem C4_no_short_circuit_bool_result :
    ∀ va vb : Value, va ≠ Value.undef → vb ≠ Value.undef →
      xv_eval (bytesR (r"a||b")) (some (envAB va vb))
        = (if is_err va then va else if is_err vb then vb
           else make_bool (to_bool va || to_bool vb))
      ∧ xv_eval (bytesR (r"a&&b")) (some (envAB va vb))
        = (if is_err va then va else if is_err vb then vb
           else make_bool (to_bool va && to_bool vb))
      ∧ xv_eval (bytesR (r"a??b")) (some (envAB va vb))
        = (if is_err va then va else if is_err vb then vb
           else vcoalesce va vb) := by
  intro va vb h1 h2
  have h := eval_logic_fuel 999936 va vb h1 h2
  refine ⟨?_, ?_, ?_⟩
  · show (eval_foreach XV_FUEL _ _ _ _).1 = _
    rw [show XV_FUEL = 999936 + 64 from rfl]
    exact h.1
  · show (eval_foreach XV_FUEL _ _ _ _).1 = _
    rw [show XV_FUEL = 999936 + 64 from rfl]
    exact h.2.1
  · show (eval_foreach XV_FUEL _ _ _ _).1 = _
    rw [show XV_FUEL = 999936 + 64 from rfl]
    exact h.2.2

/-- Witness for C4: a truthy left operand does not short-circuit — the
error from the right side of `||` is the result. -/
theorem C4_witness :
    xv_eval (bytesR (r"a||b")) (some (envAB (Value.bool true) errBoom))
      = errBoom := by
  have h := (C4_no_short_circuit_bool_result (Value.bool true) errBoom
    (by simp) (by simp [errBoom, err_msg])).1
  simpa [errBoom, err_msg, is_err] using h

/-! ## C9: empty input at the top versus inside -/

/-- Helper: fuel-generic evaluation of the empty parenthesis group under
any environment. -/
theorem eval_empty_group_fuel :
    ∀ (k : Nat) (env : Option Env),
      (eval_foreach (k + 64) (bytesR (r"()")) env false 0).1 = err_syn :=
  fun _ _ => rfl

/-- C9: empty and whitespace-only input to the top-level entry yields
undefined (not an error) under every environment, while an empty operand
range reaching the atom level of a nested evaluation yields the syntax
error — the atom evaluator maps an empty and a whitespace-only range to
the syntax error at every fuel, context and depth, and concretely the
expression of an empty parenthesis group is a syntax error. -/
theorem C9_empty_input :
    (∀ env : Option Env, xv_eval [] env = Value.undef)
    ∧ (∀ env : Option Env, xv_eval [32, 9, 10, 13] env = Value.undef)
    ∧ (∀ (fuel : Nat) (ctx : EvalContext) (d : Nat),
        eval_atom fuel [] ctx d = (err_syn, []))
    ∧ (∀ (fuel : Nat) (ctx : EvalContext) (d : Nat),
        eval_atom fuel [32, 9, 10, 13] ctx d = (err_syn, []))
    ∧ (∀ env : Option Env, xv_eval (bytesR (r"()")) env = err_syn) := by
  refine ⟨fun env => rfl, fun env => rfl, ?_, ?_, ?_⟩
  · intro fuel ctx d
    cases fuel <;> rfl
  · intro fuel ctx d
    cases fuel <;> rfl
  · intro env
    show (eval_foreach XV_FUEL _ _ _ _).1 = _
    rw [show XV_FUEL = 999936 + 64 from rfl]
    exact eval_empty_group_fuel 999936 env

/-! ## C8: the recursion-depth guard -/

/-- Unfolding of the `eval_auto` dispatcher at positive fuel: the depth
guard is checked before anything else. -/
theorem eval_auto_succ (f step : Nat) (expr : Bytes) (ctx : EvalContext) (d : Nat) :
    eval_auto (f + 1) step expr ctx d =
      (if XV_MAXDEPTH < d - 1 then (err_msg maxdepth_msg, [])
       else
        if step ≤ STEP_COMMA ∧ hasStep ctx.steps STEP_COMMA then
          eval_comma f expr ctx d
        else if step ≤ STEP_TERNS ∧ hasStep ctx.steps STEP_TERNS then
          eval_terns f expr ctx d
        else if step ≤ STEP_LOGICAL_OR ∧ hasStep ctx.steps STEP_LOGICAL_OR then
          eval_logical_or f expr ctx d
        else if step ≤ STEP_LOGICAL_AND ∧ hasStep ctx.steps STEP_LOGICAL_AND then
          eval_logical_and f expr ctx d
        else if step ≤ STEP_BITWISE_OR ∧ hasStep ctx.steps STEP_BITWISE_OR then
          eval_bitwise_or f expr ctx d
        else if step ≤ STEP_BITWISE_XOR ∧ hasStep ctx.steps STEP_BITWISE_XOR then
          eval_bitwise_xor f expr ctx d
        else if step ≤ STEP_BITWISE_AND ∧ hasStep ctx.steps STEP_BITWISE_AND then
          eval_bitwise_and f expr ctx d
        else if step ≤ STEP_EQUALITY ∧ hasStep ctx.steps STEP_EQUALITY then
          eval_equality f expr ctx d
        else if step ≤ STEP_COMPS ∧ hasStep ctx.steps STEP_COMPS then
          eval_comps f expr ctx d
        else if step ≤ STEP_SUMS ∧ hasStep ctx.steps STEP_SUMS then
          eval_sums f expr ctx d
        else if step ≤ STEP_FACTS ∧ hasStep ctx.steps STEP_FACTS then
          eval_facts f expr ctx d
        else eval_atom f expr ctx d) := rfl

/-- Unfolding of the `eval_auto` dispatcher at zero fuel: the depth
guard is still checked first. -/
theorem eval_auto_zero (step : Nat) (expr : Bytes) (ctx : EvalContext) (d : Nat) :
    eval_auto 0 step expr ctx d =
      (if XV_MAXDEPTH < d - 1 then (err_msg maxdepth_msg, []) else fuel_out) := rfl

/-- At any fuel, a depth beyond the cap makes the dispatcher return the
MaxDepthError message without evaluating anything. -/
theorem eval_auto_guard (fuel step : Nat) (expr : Bytes) (ctx : EvalContext) (d : Nat)
    (h : XV_MAXDEPTH < d - 1) :
    eval_auto fuel step expr ctx d = (err_msg maxdepth_msg, []) := by
  cases fuel with
  | zero => rw [eval_auto_zero, if_pos h]
  | succ f => rw [eval_auto_succ, if_pos h]

set_option maxHeartbeats 100000000 in
set_option maxRecDepth 200000 in
unseal Rat.add Rat.mul Rat.sub Rat.inv in
/-- C8: the depth counter is incremented exactly at `eval_expr` (the
descent into the top of the level stack); whenever it exceeds
`XV_MAXDEPTH` (100) the dispatcher returns the CUSTOM_MESSAGE error
whose bytes read exactly "MaxDepthError"; the expression of 100 nested
parentheses around `1` evaluates to the float 1, while 101 nested
parentheses return the MaxDepthError. -/
theorem C8_depth_guard :
    (∀ (fuel step : Nat) (expr : Bytes) (ctx : EvalContext) (d : Nat),
        XV_MAXDEPTH < d - 1 →
        eval_auto fuel step expr ctx d = (err_msg maxdepth_msg, []))
    ∧ (∀ (f : Nat) (expr : Bytes) (ctx : EvalContext) (d : Nat),
        eval_expr (f + 1) expr ctx d = eval_auto f STEP_COMMA expr ctx (d + 1))
    ∧ maxdepth_msg = bytesR (r"MaxDepthError")
    ∧ xv_eval (parens XV_MAXDEPTH) none = make_float (F64.fin 1)
    ∧ xv_eval (parens (XV_MAXDEPTH + 1)) none = err_msg maxdepth_msg :=
  ⟨fun fuel step expr ctx d h => eval_auto_guard fuel step expr ctx d h,
   fun _ _ _ _ => rfl, rfl, rfl, rfl⟩

/-- Witness for C8: the guard fires at a concrete over-deep call and the
descent increments the depth at a concrete call. -/
theorem C8_witness :
    eval_auto 5 2 [] ctx0 102 = (err_msg maxdepth_msg, [])
    ∧ eval_expr 4 [] ctx0 7 = eval_auto 3 STEP_COMMA [] ctx0 8 :=
  ⟨C8_depth_guard.1 5 2 [] ctx0 102 (by decide),
   C8_depth_guard.2.1 3 [] ctx0 7⟩

end XV
